import Mathlib

/-!
# Asteroids OOP: per-frame simulation core of `src/main.cpp`

A shallow embedding of the game loop of `src/main.cpp` and theorems about it.

Conventions of the embedding

* C++ `float` values are rationals (`ℚ`): every arithmetic step is exact, rounding is
  outside the model.
* C++ `int` values are integers (`Int`).  The health counters stay far inside the 32-bit
  range for every value the program produces (damages are at most 80, health at most 600),
  so no wrap-around is modelled.
* Calls into the outside world (keyboard, frame clock, `rand()`, texture loading, `cosf`,
  `sqrtf`) are read from an explicit input record, one per frame.
* A loop that may run forever yields `none`.
-/

namespace AsteroidsOOP

/-! ## raymath vectors -/

/-- The raylib `Vector2` record. -/
structure Vector2 where
  x : ℚ
  y : ℚ
deriving DecidableEq, Repr

/-- The raymath function `Vector2Add`. -/
def Vector2Add (v1 v2 : Vector2) : Vector2 :=
  { x := v1.x + v2.x, y := v1.y + v2.y }

/-- The raymath function `Vector2Subtract`. -/
def Vector2Subtract (v1 v2 : Vector2) : Vector2 :=
  { x := v1.x - v2.x, y := v1.y - v2.y }

/-- The raymath function `Vector2Scale`. -/
def Vector2Scale (v : Vector2) (scale : ℚ) : Vector2 :=
  { x := v.x * scale, y := v.y * scale }

/-- The raymath function `Vector2DistanceSqr`: the square of `Vector2Distance`. -/
def Vector2DistanceSqr (v1 v2 : Vector2) : ℚ :=
  (v1.x - v2.x) * (v1.x - v2.x) + (v1.y - v2.y) * (v1.y - v2.y)

/-- The test `Vector2Distance(v1, v2) < r` of the collision code, in exact arithmetic:
a square root is below `r` exactly when `r` is positive and the radicand is below `r * r`
(see `distanceLess_iff_sqrt`). -/
def distanceLess (v1 v2 : Vector2) (r : ℚ) : Bool :=
  decide (0 < r) && decide (Vector2DistanceSqr v1 v2 < r * r)

/-- The raymath function `Vector2Normalize`; `length` is the value its `sqrtf` call
returned. -/
def Vector2Normalize (v : Vector2) (length : ℚ) : Vector2 :=
  if 0 < length then { x := v.x * (1 / length), y := v.y * (1 / length) }
  else { x := 0, y := 0 }

/-! ## Utils -/

/-- `Utils::RandomFloat(min, max)`; `u` is the value of
`static_cast<float>(rand()) / RAND_MAX` of that call. -/
def RandomFloat (min max u : ℚ) : ℚ :=
  min + u * (max - min)

/-! ## Transform, physics, renderable -/

/-- The record `TransformA`. -/
structure TransformA where
  position : Vector2
  rotation : ℚ
deriving DecidableEq, Repr

/-- The record `Physics`. -/
structure Physics where
  velocity : Vector2
  rotationSpeed : ℚ
deriving DecidableEq, Repr

/-- The enumeration `Renderable::Size`. -/
inductive Size where
  | SMALL
  | MEDIUM
  | LARGE
deriving DecidableEq, Repr

/-- The integer value of a `Renderable::Size` enumerator. -/
def Size.toInt : Size → Int
  | .SMALL => 1
  | .MEDIUM => 2
  | .LARGE => 4

/-- The cast `static_cast<Renderable::Size>(1 << k)` for `k = GetRandomValue(0, 2)`. -/
def Size.ofShift : Fin 3 → Size
  | ⟨0, _⟩ => .SMALL
  | ⟨1, _⟩ => .MEDIUM
  | ⟨_ + 2, _⟩ => .LARGE

/-- The record `Renderable`. -/
structure Renderable where
  size : Size
deriving DecidableEq, Repr

/-! ## Renderer -/

/-- The part of the `Renderer` singleton the simulation reads: the window size stored
by `Init`. -/
structure Renderer where
  screenW : Int
  screenH : Int
deriving DecidableEq, Repr

/-- The method `Renderer::Width`. -/
def Renderer.Width (r : Renderer) : Int := r.screenW

/-- The method `Renderer::Height`. -/
def Renderer.Height (r : Renderer) : Int := r.screenH

/-! ## Asteroid hierarchy -/

/-- The enumeration `AsteroidShape`. -/
inductive AsteroidShape where
  | TRIANGLE
  | SQUARE
  | PENTAGON
  | REDHEAVY
  | RANDOM
deriving DecidableEq, Repr

/-- The outcomes of the random and libm calls made while one asteroid is constructed. -/
structure SpawnRoll where
  /-- Value of `GetRandomValue(0, 2)` in `Asteroid::init`. -/
  sizeShift : Fin 3
  /-- Value of `GetRandomValue(0, 3)` in `Asteroid::init`. -/
  edge : Fin 4
  /-- Unit draw of the `RandomFloat` call placing the asteroid along its entry edge. -/
  alongU : ℚ
  /-- Value of `cosf(ang)`. -/
  cosAng : ℚ
  /-- Value of `sinf(ang)`. -/
  sinAng : ℚ
  /-- Unit draw of `RandomFloat(0, maxOff)`. -/
  radU : ℚ
  /-- Value of the `sqrtf` call inside `Vector2Normalize`. -/
  aimLength : ℚ
  /-- Unit draw of `RandomFloat(SPEED_MIN, SPEED_MAX)`. -/
  speedU : ℚ
  /-- Unit draw of `RandomFloat(ROT_MIN, ROT_MAX)`. -/
  rotSpeedU : ℚ
  /-- Unit draw of `RandomFloat(0, 360)`. -/
  rotationU : ℚ
  /-- Value of `GetRandomValue(0, 3)` in the `default` branch of `MakeAsteroid`. -/
  shapeRoll : Fin 4
deriving DecidableEq, Repr

/-- The class `Asteroid`.  `cls` records the most derived class of the object (it selects
the `Draw` override and nothing else). -/
structure Asteroid where
  cls : AsteroidShape
  transform : TransformA
  physics : Physics
  render : Renderable
  baseDamage : Int
  baseHP : Int
  hp : Int
  maxHP : Int
deriving DecidableEq, Repr

/-- The constant `Asteroid::SPEED_MIN`. -/
def Asteroid.SPEED_MIN : ℚ := 20

/-- The constant `Asteroid::SPEED_MAX`. -/
def Asteroid.SPEED_MAX : ℚ := 120

/-- The constant `Asteroid::ROT_MIN`. -/
def Asteroid.ROT_MIN : ℚ := 40

/-- The constant `Asteroid::ROT_MAX`. -/
def Asteroid.ROT_MAX : ℚ := 150

/-- The radius formula of `Asteroid::GetRadius`, as a function of the size. -/
def radiusOfSize (size : Size) : ℚ := 16 * (size.toInt : ℚ)

/-- The method `Asteroid::GetRadius`. -/
def Asteroid.GetRadius (a : Asteroid) : ℚ := radiusOfSize a.render.size

/-- The method `Asteroid::GetDamage`. -/
def Asteroid.GetDamage (a : Asteroid) : Int := a.baseDamage * a.render.size.toInt

/-- The method `Asteroid::GetSize`. -/
def Asteroid.GetSize (a : Asteroid) : Int := a.render.size.toInt

/-- The method `Asteroid::GetPosition`. -/
def Asteroid.GetPosition (a : Asteroid) : Vector2 := a.transform.position

/-- The method `Asteroid::SetupHP`. -/
def Asteroid.SetupHP (a : Asteroid) : Asteroid :=
  { a with hp := a.baseHP * a.render.size.toInt, maxHP := a.baseHP * a.render.size.toInt }

/-- The method `Asteroid::TakeDamage`. -/
def Asteroid.TakeDamage (a : Asteroid) (dmg : Int) : Asteroid :=
  { a with hp := a.hp - dmg }

/-- The method `Asteroid::IsDestroyed`. -/
def Asteroid.IsDestroyed (a : Asteroid) : Bool := decide (a.hp ≤ 0)

/-- The method `Asteroid::Update`: the moved asteroid and the returned flag (`false` means
out of bounds). -/
def Asteroid.Update (rnd : Renderer) (a : Asteroid) (dt : ℚ) : Asteroid × Bool :=
  let position := Vector2Add a.transform.position (Vector2Scale a.physics.velocity dt)
  let rotation := a.transform.rotation + a.physics.rotationSpeed * dt
  let a1 : Asteroid := { a with transform := { position := position, rotation := rotation } }
  if position.x < -a1.GetRadius ∨ position.x > (rnd.Width : ℚ) + a1.GetRadius ∨
      position.y < -a1.GetRadius ∨ position.y > (rnd.Height : ℚ) + a1.GetRadius then
    (a1, false)
  else
    (a1, true)

/-- The entry position chosen by the `switch` of `Asteroid::init`. -/
def entryPosition (screenW screenH : Int) (size : Size) (roll : SpawnRoll) : Vector2 :=
  match roll.edge with
  | ⟨0, _⟩ => { x := RandomFloat 0 screenW roll.alongU, y := -radiusOfSize size }
  | ⟨1, _⟩ => { x := (screenW : ℚ) + radiusOfSize size, y := RandomFloat 0 screenH roll.alongU }
  | ⟨2, _⟩ => { x := RandomFloat 0 screenW roll.alongU, y := (screenH : ℚ) + radiusOfSize size }
  | ⟨_ + 3, _⟩ => { x := -radiusOfSize size, y := RandomFloat 0 screenH roll.alongU }

/-- The aim point `center` computed in `Asteroid::init`. -/
def aimCenter (screenW screenH : Int) (roll : SpawnRoll) : Vector2 :=
  let maxOff : ℚ := (min screenW screenH : Int) * (1 / 10)
  let rad := RandomFloat 0 maxOff roll.radU
  { x := (screenW : ℚ) * (1 / 2) + roll.cosAng * rad,
    y := (screenH : ℚ) * (1 / 2) + roll.sinAng * rad }

/-- The constructor `Asteroid::Asteroid(screenW, screenH)`: the member initialisers
(`baseDamage = 0`, `baseHP = 10`, `hp = 0`, `maxHP = 0`) followed by `init`. -/
def Asteroid.ctor (cls : AsteroidShape) (screenW screenH : Int) (roll : SpawnRoll) : Asteroid :=
  let size := Size.ofShift roll.sizeShift
  let position := entryPosition screenW screenH size roll
  let center := aimCenter screenW screenH roll
  let dir := Vector2Normalize (Vector2Subtract center position) roll.aimLength
  { cls := cls
    transform := { position := position, rotation := RandomFloat 0 360 roll.rotationU }
    physics :=
      { velocity := Vector2Scale dir (RandomFloat Asteroid.SPEED_MIN Asteroid.SPEED_MAX roll.speedU)
        rotationSpeed := RandomFloat Asteroid.ROT_MIN Asteroid.ROT_MAX roll.rotSpeedU }
    render := { size := size }
    baseDamage := 0
    baseHP := 10
    hp := 0
    maxHP := 0 }

/-- The constructor `TriangleAsteroid::TriangleAsteroid`. -/
def TriangleAsteroid (w h : Int) (roll : SpawnRoll) : Asteroid :=
  { Asteroid.ctor .TRIANGLE w h roll with baseDamage := 5, baseHP := 30 }

/-- The constructor `SquareAsteroid::SquareAsteroid`. -/
def SquareAsteroid (w h : Int) (roll : SpawnRoll) : Asteroid :=
  { Asteroid.ctor .SQUARE w h roll with baseDamage := 10, baseHP := 60 }

/-- The constructor `PentagonAsteroid::PentagonAsteroid`. -/
def PentagonAsteroid (w h : Int) (roll : SpawnRoll) : Asteroid :=
  { Asteroid.ctor .PENTAGON w h roll with baseDamage := 15, baseHP := 90 }

/-- The constructor `RedHeavyAsteroid::RedHeavyAsteroid`. -/
def RedHeavyAsteroid (w h : Int) (roll : SpawnRoll) : Asteroid :=
  Asteroid.SetupHP { Asteroid.ctor .REDHEAVY w h roll with baseDamage := 20, baseHP := 150 }

/-- The cast `static_cast<AsteroidShape>(3 + GetRandomValue(0, 3))` of `MakeAsteroid`. -/
def AsteroidShape.ofRoll : Fin 4 → AsteroidShape
  | ⟨0, _⟩ => .TRIANGLE
  | ⟨1, _⟩ => .SQUARE
  | ⟨2, _⟩ => .PENTAGON
  | ⟨_ + 3, _⟩ => .REDHEAVY

/-- The `switch` of `MakeAsteroid` on a shape other than `RANDOM`. -/
def makeShaped (w h : Int) (roll : SpawnRoll) : AsteroidShape → Asteroid
  | .TRIANGLE => TriangleAsteroid w h roll
  | .SQUARE => SquareAsteroid w h roll
  | .PENTAGON => PentagonAsteroid w h roll
  | _ => RedHeavyAsteroid w h roll

/-- The factory `MakeAsteroid`: the `default` branch rolls one of the four shapes and calls
the factory again with it. -/
def MakeAsteroid (w h : Int) (shape : AsteroidShape) (roll : SpawnRoll) : Asteroid :=
  match shape with
  | .RANDOM => makeShaped w h roll (AsteroidShape.ofRoll roll.shapeRoll)
  | s => makeShaped w h roll s

/-! ## Projectile hierarchy -/

/-- The enumeration `WeaponType`. -/
inductive WeaponType where
  | LASER
  | BULLET
  | SIDE_BLASTER
  | COUNT
deriving DecidableEq, Repr

/-- The integer value of a `WeaponType` enumerator. -/
def WeaponType.toNat : WeaponType → Nat
  | .LASER => 0
  | .BULLET => 1
  | .SIDE_BLASTER => 2
  | .COUNT => 3

/-- The cast `static_cast<WeaponType>(n)` for the values `n % COUNT` can take. -/
def WeaponType.cast : Nat → WeaponType
  | 0 => .LASER
  | 1 => .BULLET
  | 2 => .SIDE_BLASTER
  | _ => .COUNT

/-- The class `Projectile`. -/
structure Projectile where
  transform : TransformA
  physics : Physics
  baseDamage : Int
  type : WeaponType
deriving DecidableEq, Repr

/-- The constructor `Projectile::Projectile(pos, vel, dmg, wt)`; the members it does not
assign (`rotation`, `rotationSpeed`) keep their zero initialisers. -/
def Projectile.ctor (pos vel : Vector2) (dmg : Int) (wt : WeaponType) : Projectile :=
  { transform := { position := pos, rotation := 0 }
    physics := { velocity := vel, rotationSpeed := 0 }
    baseDamage := dmg
    type := wt }

/-- The method `Projectile::Update`: the moved projectile and the returned flag (`true`
means the projectile left the window and is to be removed). -/
def Projectile.Update (rnd : Renderer) (p : Projectile) (dt : ℚ) : Projectile × Bool :=
  let position := Vector2Add p.transform.position (Vector2Scale p.physics.velocity dt)
  let p1 : Projectile := { p with transform := { p.transform with position := position } }
  if position.x < 0 ∨ position.x > (rnd.Width : ℚ) ∨
      position.y < 0 ∨ position.y > (rnd.Height : ℚ) then
    (p1, true)
  else
    (p1, false)

/-- The method `Projectile::GetPosition`. -/
def Projectile.GetPosition (p : Projectile) : Vector2 := p.transform.position

/-- The method `Projectile::GetRadius`. -/
def Projectile.GetRadius (p : Projectile) : ℚ :=
  if p.type = .BULLET then 5 else 2

/-- The method `Projectile::GetDamage`. -/
def Projectile.GetDamage (p : Projectile) : Int := p.baseDamage

/-- The function `MakeProjectile`. -/
def MakeProjectile (wt : WeaponType) (pos : Vector2) (speed : ℚ) : List Projectile :=
  if wt = .LASER then
    [Projectile.ctor pos { x := 0, y := -speed } 10 wt]
  else if wt = .BULLET then
    [Projectile.ctor pos { x := 0, y := -speed } 3 wt]
  else if wt = .SIDE_BLASTER then
    [Projectile.ctor pos { x := -speed, y := 0 } 5 wt,
     Projectile.ctor pos { x := speed, y := 0 } 5 wt]
  else
    []

/-! ## Ship hierarchy -/

/-- The data members of the class `Ship`. -/
structure Ship where
  transform : TransformA
  hp : Int
  maxHP : Int
  speed : ℚ
  alive : Bool
  fireRateLaser : ℚ
  fireRateBullet : ℚ
  spacingLaser : ℚ
  spacingBullet : ℚ
deriving DecidableEq, Repr

/-- The constructor `Ship::Ship(screenW, screenH)`. -/
def Ship.ctor (screenW screenH : Int) : Ship :=
  { transform :=
      { position := { x := (screenW : ℚ) * (1 / 2), y := (screenH : ℚ) * (1 / 2) }
        rotation := 0 }
    hp := 100
    maxHP := 100
    speed := 500
    alive := true
    fireRateLaser := 10
    fireRateBullet := 30
    spacingLaser := 40
    spacingBullet := 20 }

/-- The method `Ship::TakeDamage`. -/
def Ship.TakeDamage (s : Ship) (dmg : Int) : Ship :=
  if !s.alive then s
  else
    let s1 : Ship := { s with hp := s.hp - dmg }
    if s1.hp ≤ 0 then { s1 with alive := false } else s1

/-- The method `Ship::IsAlive`. -/
def Ship.IsAlive (s : Ship) : Bool := s.alive

/-- The method `Ship::GetPosition`. -/
def Ship.GetPosition (s : Ship) : Vector2 := s.transform.position

/-- The method `Ship::GetHP`. -/
def Ship.GetHP (s : Ship) : Int := s.hp

/-- The method `Ship::GetMaxHP`. -/
def Ship.GetMaxHP (s : Ship) : Int := s.maxHP

/-- The method `Ship::GetFireRate`. -/
def Ship.GetFireRate (s : Ship) (wt : WeaponType) : ℚ :=
  if wt = .LASER then s.fireRateLaser else s.fireRateBullet

/-- The method `Ship::GetSpacing`. -/
def Ship.GetSpacing (s : Ship) (wt : WeaponType) : ℚ :=
  if wt = .LASER then s.spacingLaser else s.spacingBullet

/-- The class `PlayerShip`; of its texture only the width is read by the simulation. -/
structure PlayerShip extends Ship where
  textureWidth : Int
  scale : ℚ
deriving DecidableEq, Repr

/-- The constructor `PlayerShip::PlayerShip(w, h)`; `textureWidth` is the width of the
texture `LoadTexture` returned. -/
def PlayerShip.ctor (w h : Int) (textureWidth : Int) : PlayerShip :=
  { toShip := Ship.ctor w h, textureWidth := textureWidth, scale := 1 / 4 }

/-- The keys `PlayerShip::Update` polls with `IsKeyDown`. -/
structure MoveKeys where
  keyW : Bool
  keyS : Bool
  keyA : Bool
  keyD : Bool
deriving DecidableEq, Repr

/-- The method `PlayerShip::Update`. -/
def PlayerShip.Update (p : PlayerShip) (keys : MoveKeys) (dt : ℚ) : PlayerShip :=
  let pos := p.transform.position
  if p.alive then
    let pos1 : Vector2 := if keys.keyW then { pos with y := pos.y - p.speed * dt } else pos
    let pos2 : Vector2 := if keys.keyS then { pos1 with y := pos1.y + p.speed * dt } else pos1
    let pos3 : Vector2 := if keys.keyA then { pos2 with x := pos2.x - p.speed * dt } else pos2
    let pos4 : Vector2 := if keys.keyD then { pos3 with x := pos3.x + p.speed * dt } else pos3
    { p with transform := { p.transform with position := pos4 } }
  else
    { p with transform := { p.transform with position := { pos with y := pos.y + p.speed * dt } } }

/-- The method `PlayerShip::GetRadius`. -/
def PlayerShip.GetRadius (p : PlayerShip) : ℚ :=
  ((p.textureWidth : ℚ) * p.scale) * (1 / 2)

/-- The inherited method `Ship::TakeDamage` called on a `PlayerShip`. -/
def PlayerShip.TakeDamage (p : PlayerShip) (dmg : Int) : PlayerShip :=
  { p with toShip := p.toShip.TakeDamage dmg }

/-! ## Application -/

/-- The constant `Application::C_WIDTH`. -/
def C_WIDTH : Int := 1600

/-- The constant `Application::C_HEIGHT`. -/
def C_HEIGHT : Int := 1600

/-- The constant `Application::MAX_AST`. -/
def MAX_AST : Nat := 150

/-- The constant `Application::C_SPAWN_MIN`. -/
def C_SPAWN_MIN : ℚ := 1 / 2

/-- The constant `Application::C_SPAWN_MAX`. -/
def C_SPAWN_MAX : ℚ := 3

/-- The renderer after `Renderer::Instance().Init(C_WIDTH, C_HEIGHT, ...)`. -/
def theRenderer : Renderer := { screenW := C_WIDTH, screenH := C_HEIGHT }

/-- The state of `Application::Run` between two frames: the members of `Application`
and the local variables of `Run` that live across the `while` loop. -/
structure Application where
  asteroids : List Asteroid
  projectiles : List Projectile
  currentShape : AsteroidShape
  player : PlayerShip
  spawnTimer : ℚ
  spawnInterval : ℚ
  currentWeapon : WeaponType
  shotTimer : ℚ
  points : Int
deriving DecidableEq, Repr

/-- What one frame reads from the outside world. -/
structure Frame where
  /-- Value of `GetFrameTime()`. -/
  dt : ℚ
  /-- Values of `IsKeyDown` for W, S, A, D. -/
  move : MoveKeys
  /-- Value of `IsKeyDown(KEY_SPACE)`. -/
  keySpace : Bool
  /-- Value of `IsKeyPressed(KEY_R)`. -/
  keyR : Bool
  /-- Value of `IsKeyPressed(KEY_ONE)`. -/
  keyOne : Bool
  /-- Value of `IsKeyPressed(KEY_TWO)`. -/
  keyTwo : Bool
  /-- Value of `IsKeyPressed(KEY_THREE)`. -/
  keyThree : Bool
  /-- Value of `IsKeyPressed(KEY_FOUR)`. -/
  keyFour : Bool
  /-- Value of `IsKeyPressed(KEY_FIVE)`. -/
  keyFive : Bool
  /-- Value of `IsKeyPressed(KEY_TAB)`. -/
  keyTab : Bool
  /-- Width of the texture a `LoadTexture("spaceship.png")` call of this frame returns. -/
  textureWidth : Int
  /-- Unit draw of the `RandomFloat` call of the restart logic. -/
  restartU : ℚ
  /-- Random outcomes for the asteroid the spawn step may create. -/
  spawnRoll : SpawnRoll
  /-- Unit draw of the `RandomFloat` call of the spawn step. -/
  spawnU : ℚ
deriving DecidableEq, Repr

/-- The state on entry to the `while` loop of `Application::Run`. -/
def Application.start (textureWidth : Int) (intervalU : ℚ) : Application :=
  { asteroids := []
    projectiles := []
    currentShape := .TRIANGLE
    player := PlayerShip.ctor C_WIDTH C_HEIGHT textureWidth
    spawnTimer := 0
    spawnInterval := RandomFloat C_SPAWN_MIN C_SPAWN_MAX intervalU
    currentWeapon := .LASER
    shotTimer := 0
    points := 0 }

/-- The statement `spawnTimer += dt` at the top of the loop body. -/
def advanceSpawnTimer (f : Frame) (app : Application) : Application :=
  { app with spawnTimer := app.spawnTimer + f.dt }

/-- The statement `player->Update(dt)`. -/
def updatePlayer (f : Frame) (app : Application) : Application :=
  { app with player := app.player.Update f.move f.dt }

/-- The block "Restart logic". -/
def restartLogic (f : Frame) (app : Application) : Application :=
  if !app.player.IsAlive && f.keyR then
    { app with
      player := PlayerShip.ctor C_WIDTH C_HEIGHT f.textureWidth
      asteroids := []
      projectiles := []
      spawnTimer := 0
      spawnInterval := RandomFloat C_SPAWN_MIN C_SPAWN_MAX f.restartU
      points := 0 }
  else app

/-- The block "Asteroid shape switch": five `if` statements in source order. -/
def shapeSwitch (f : Frame) (app : Application) : Application :=
  let s1 := if f.keyOne then AsteroidShape.TRIANGLE else app.currentShape
  let s2 := if f.keyTwo then AsteroidShape.SQUARE else s1
  let s3 := if f.keyThree then AsteroidShape.PENTAGON else s2
  let s4 := if f.keyFive then AsteroidShape.REDHEAVY else s3
  let s5 := if f.keyFour then AsteroidShape.RANDOM else s4
  { app with currentShape := s5 }

/-- The block "Weapon switch". -/
def weaponSwitch (f : Frame) (app : Application) : Application :=
  if f.keyTab then
    { app with
      currentWeapon := WeaponType.cast ((app.currentWeapon.toNat + 1) % WeaponType.COUNT.toNat) }
  else app

/-- The catch-up loop `while (shotTimer >= interval)` of the shooting block.  The result is
the projectile collection and `shotTimer` on exit.  With `interval <= 0` an entered loop
never leaves (each pass keeps `shotTimer >= interval`): that is `none`. -/
def fireLoop (player : PlayerShip) (currentWeapon : WeaponType) (projSpeed interval : ℚ)
    (shotTimer : ℚ) (projectiles : List Projectile) : Option (List Projectile × ℚ) :=
  if shotTimer ≥ interval then
    if 0 < interval then
      let p := player.GetPosition
      let p1 : Vector2 := { p with y := p.y - player.GetRadius }
      let shots := MakeProjectile currentWeapon p1 projSpeed
      fireLoop player currentWeapon projSpeed interval (shotTimer - interval) (projectiles ++ shots)
    else none
  else some (projectiles, shotTimer)
termination_by (⌊shotTimer / interval⌋).toNat
decreasing_by
  rename_i hge hpos
  have h1 : (shotTimer - interval) / interval = shotTimer / interval - 1 := by
    field_simp
  have h2 : (1 : ℤ) ≤ ⌊shotTimer / interval⌋ := by
    rw [Int.le_floor]
    rw [le_div_iff₀ hpos]
    simpa using hge
  rw [h1, Int.floor_sub_one]
  omega

/-- The C library function `fmodf` in exact arithmetic: `x` minus `y` times the quotient
`x / y` truncated toward zero. -/
def fmodf (x y : ℚ) : ℚ :=
  let q := x / y
  x - y * (if 0 ≤ q then ⌊q⌋ else ⌈q⌉ : ℤ)

/-- The block "Shooting". -/
def shooting (f : Frame) (app : Application) : Option Application :=
  if app.player.IsAlive && f.keySpace then
    let shotTimer := app.shotTimer + f.dt
    let interval := 1 / app.player.GetFireRate app.currentWeapon
    let projSpeed := app.player.GetSpacing app.currentWeapon * app.player.GetFireRate app.currentWeapon
    (fireLoop app.player app.currentWeapon projSpeed interval shotTimer app.projectiles).map
      (fun r => { app with projectiles := r.1, shotTimer := r.2 })
  else
    let maxInterval := 1 / app.player.GetFireRate app.currentWeapon
    if app.shotTimer > maxInterval then
      some { app with shotTimer := fmodf app.shotTimer maxInterval }
    else some app

/-- The block "Spawn asteroids". -/
def spawnAsteroids (f : Frame) (app : Application) : Application :=
  if app.spawnTimer ≥ app.spawnInterval ∧ app.asteroids.length < MAX_AST then
    { app with
      asteroids := app.asteroids ++ [MakeAsteroid C_WIDTH C_HEIGHT app.currentShape f.spawnRoll]
      spawnTimer := 0
      spawnInterval := RandomFloat C_SPAWN_MIN C_SPAWN_MAX f.spawnU }
  else app

/-- The `remove_if`/`erase` pair of the block "Update projectiles": every projectile is
moved, those whose `Update` returns `true` are dropped. -/
def removeIfUpdate (rnd : Renderer) (dt : ℚ) : List Projectile → List Projectile
  | [] => []
  | p :: rest =>
    let r := p.Update rnd dt
    if r.2 then removeIfUpdate rnd dt rest else r.1 :: removeIfUpdate rnd dt rest

/-- The block "Update projectiles". -/
def updateProjectiles (rnd : Renderer) (f : Frame) (app : Application) : Application :=
  { app with projectiles := removeIfUpdate rnd f.dt app.projectiles }

/-- The collision test of the projectile-asteroid loop:
`Vector2Distance(pit->GetPosition(), (*ait)->GetPosition()) < pit->GetRadius() + (*ait)->GetRadius()`. -/
def projectileHits (p : Projectile) (a : Asteroid) : Bool :=
  distanceLess p.GetPosition a.GetPosition (p.GetRadius + a.GetRadius)

/-- The inner loop `for (ait = begin; ait != end; ++ait)` of the projectile-asteroid
collisions, run for the projectile `p` over the asteroids from `ait` to the end.  `none`: the
loop reached the end without a hit.  `some (asteroids, destroyed)`: the loop left through
`break`; the asteroid hit took the damage and, when destroyed, was erased. -/
def scanAsteroids (p : Projectile) : List Asteroid → Option (List Asteroid × Bool)
  | [] => none
  | a :: rest =>
    if projectileHits p a then
      let a1 := a.TakeDamage p.GetDamage
      if a1.IsDestroyed then some (rest, true) else some (a1 :: rest, false)
    else
      (scanAsteroids p rest).map (fun r => (a :: r.1, r.2))

/-- The outer loop `for (pit = begin; pit != end;)` of the projectile-asteroid collisions,
from the iterator position `pit` on: the projectiles, asteroids and points when it ends.
`projectiles.erase(pit)` leaves `pit` at the same index. -/
def collisionLoop (pit : Nat) (projectiles : List Projectile) (asteroids : List Asteroid)
    (points : Int) : List Projectile × List Asteroid × Int :=
  if h : pit < projectiles.length then
    match scanAsteroids projectiles[pit] asteroids with
    | some (asteroids1, destroyed) =>
      collisionLoop pit (projectiles.eraseIdx pit) asteroids1
        (if destroyed then points + 1 else points)
    | none => collisionLoop (pit + 1) projectiles asteroids points
  else (projectiles, asteroids, points)
termination_by projectiles.length - pit
decreasing_by
  all_goals simp_wf
  · rw [List.length_eraseIdx]
    split <;> omega
  · omega

/-- The block "Projectile-Asteroid collisions". -/
def projectileAsteroidCollisions (app : Application) : Application :=
  let r := collisionLoop 0 app.projectiles app.asteroids app.points
  { app with projectiles := r.1, asteroids := r.2.1, points := r.2.2 }

/-- The lambda `remove_collision`, called on one asteroid: the player after the call, the
asteroid after the call and the returned flag (`true` marks the asteroid for removal). -/
def remove_collision (rnd : Renderer) (dt : ℚ) (player : PlayerShip) (a : Asteroid) :
    PlayerShip × Asteroid × Bool :=
  if player.IsAlive &&
      distanceLess player.GetPosition a.GetPosition (player.GetRadius + a.GetRadius) then
    (player.TakeDamage a.GetDamage, a, true)
  else
    let r := a.Update rnd dt
    if !r.2 then (player, r.1, true) else (player, r.1, false)

/-- The `remove_if`/`erase` pair of the block "Asteroid-Ship collisions": the lambda is
called once on every asteroid in storage order, the asteroids it marks are dropped. -/
def removeIfCollision (rnd : Renderer) (dt : ℚ) :
    PlayerShip → List Asteroid → PlayerShip × List Asteroid
  | player, [] => (player, [])
  | player, a :: rest =>
    let r := remove_collision rnd dt player a
    let out := removeIfCollision rnd dt r.1 rest
    (out.1, if r.2.2 then out.2 else r.2.1 :: out.2)

/-- The block "Asteroid-Ship collisions". -/
def asteroidShipCollisions (rnd : Renderer) (f : Frame) (app : Application) : Application :=
  let r := removeIfCollision rnd f.dt app.player app.asteroids
  { app with player := r.1, asteroids := r.2 }

/-- The two collision blocks of a frame, in source order. -/
def collisions (rnd : Renderer) (f : Frame) (app : Application) : Application :=
  asteroidShipCollisions rnd f (projectileAsteroidCollisions app)

/-- One pass through the body of the `while` loop of `Application::Run` (rendering
left out). `none`: the frame never ends. -/
def Application.RunFrame (f : Frame) (app : Application) : Option Application :=
  let s1 := advanceSpawnTimer f app
  let s2 := updatePlayer f s1
  let s3 := restartLogic f s2
  let s4 := shapeSwitch f s3
  let s5 := weaponSwitch f s4
  (shooting f s5).map (fun s6 =>
    let s7 := spawnAsteroids f s6
    let s8 := updateProjectiles theRenderer f s7
    collisions theRenderer f s8)

/-! ## Runs of calls, for the statements about sequences -/

/-- A call on the player ship: `TakeDamage(dmg)` or `Update(dt)` with the keys held. -/
inductive ShipCall where
  | takeDamage (dmg : Int)
  | update (keys : MoveKeys) (dt : ℚ)
deriving DecidableEq, Repr

/-- The ship after one call. -/
def PlayerShip.call (p : PlayerShip) : ShipCall → PlayerShip
  | .takeDamage dmg => p.TakeDamage dmg
  | .update keys dt => p.Update keys dt

/-- The ship after a sequence of calls, first call first. -/
def PlayerShip.calls (p : PlayerShip) (cs : List ShipCall) : PlayerShip :=
  cs.foldl PlayerShip.call p

/-- A run of "Projectile-Asteroid collisions" blocks over successive frames: each frame
enters its block with one projectile of `shots` as the whole projectile collection and with
the asteroids and points the block of the frame before left. -/
def hitFrames : List Projectile → List Asteroid → Int → List Asteroid × Int
  | [], asteroids, points => (asteroids, points)
  | p :: shots, asteroids, points =>
    let r := collisionLoop 0 [p] asteroids points
    hitFrames shots r.2.1 r.2.2

/-- The damages a list of projectiles carries, summed. -/
def totalDamage (shots : List Projectile) : Int :=
  (shots.map Projectile.GetDamage).sum

/-- A call on an asteroid: `TakeDamage(dmg)` or `Update(dt)`. -/
inductive AsteroidCall where
  | takeDamage (dmg : Int)
  | update (dt : ℚ)
deriving DecidableEq, Repr

/-- The asteroid after one call. -/
def Asteroid.call (rnd : Renderer) (a : Asteroid) : AsteroidCall → Asteroid
  | .takeDamage dmg => a.TakeDamage dmg
  | .update dt => (a.Update rnd dt).1

/-- The asteroid after a sequence of calls, first call first. -/
def Asteroid.calls (rnd : Renderer) (a : Asteroid) (cs : List AsteroidCall) : Asteroid :=
  cs.foldl (Asteroid.call rnd) a

/-- The state after a run of frames of the `while` loop, first frame first; `none` when one
of the frames never ends. -/
def runFrames : List Frame → Application → Option Application
  | [], app => some app
  | f :: frames, app => (Application.RunFrame f app).bind (runFrames frames)

/-! ## Reference resolution of the projectile-obstacle collisions, from the specification -/

/-- Specification 4.4, "scan obstacles in storage order and stop at the first obstacle whose
center distance to the projectile is less than the sum of their radii": the obstacles
before that first obstacle, the obstacle, and the obstacles after it; `none` when no
obstacle is that close. -/
def specFirstOverlap (p : Projectile) (obstacles : List Asteroid) :
    Option (List Asteroid × Asteroid × List Asteroid) :=
  match obstacles.span (fun a => !projectileHits p a) with
  | (before, a :: after) => some (before, a, after)
  | (_, []) => none

/-- Specification 4.4, the turn of one projectile against the then-current obstacles: "On a
hit: apply the projectile's damage to that obstacle, remove the projectile; if the
obstacle's health is now <= 0, remove the obstacle and increment score by exactly 1". The
state is the projectiles kept so far, the obstacles and the score. -/
def specResolveProjectile (state : List Projectile × List Asteroid × Int) (p : Projectile) :
    List Projectile × List Asteroid × Int :=
  match specFirstOverlap p state.2.1 with
  | none => (state.1 ++ [p], state.2.1, state.2.2)
  | some (before, a, after) =>
    if a.hp - p.GetDamage ≤ 0 then (state.1, before ++ after, state.2.2 + 1)
    else (state.1, before ++ { a with hp := a.hp - p.GetDamage } :: after, state.2.2)

/-- Specification 4.4, "iterate projectiles in their storage order": the fold of
`specResolveProjectile` over the projectiles, each visited exactly once. -/
def specResolve (projectiles : List Projectile) (obstacles : List Asteroid) (score : Int) :
    List Projectile × List Asteroid × Int :=
  projectiles.foldl specResolveProjectile ([], obstacles, score)

/-- An obstacle with its health blanked: what identifies it apart from the damage taken. -/
def Asteroid.body (a : Asteroid) : Asteroid := { a with hp := 0 }

/-! ## Sample inputs -/

/-- A sample of random outcomes: size Large, entry from the top edge. -/
def sampleRoll : SpawnRoll :=
  { sizeShift := 2, edge := 0, alongU := 1 / 2, cosAng := 1, sinAng := 0, radU := 0
    aimLength := 864, speedU := 0, rotSpeedU := 0, rotationU := 0, shapeRoll := 0 }

/-- A sample frame: a sixtieth of a second, no key down. -/
def sampleFrame : Frame :=
  { dt := 1 / 60, move := ⟨false, false, false, false⟩, keySpace := false, keyR := false
    keyOne := false, keyTwo := false, keyThree := false, keyFour := false
    keyFive := false, keyTab := false, textureWidth := 256, restartU := 1 / 2
    spawnRoll := sampleRoll, spawnU := 1 / 2 }

/-- The sample frame with the restart key pressed. -/
def restartFrame : Frame := { sampleFrame with keyR := true }

/-- The sample frame with the fire key held for a quarter of a second. -/
def fireFrame : Frame := { sampleFrame with keySpace := true, dt := 1 / 4 }

/-- A sample state with an alive ship and 7 points. -/
def sampleApp : Application := { Application.start 256 0 with points := 7 }

/-- A sample state whose ship took 100 damage and is dead. -/
def deadApp : Application :=
  { sampleApp with player := (PlayerShip.ctor C_WIDTH C_HEIGHT 256).TakeDamage 100 }

/-- A sample laser projectile at `(800, 700)`. -/
def sampleShot : Projectile :=
  Projectile.ctor { x := 800, y := 700 } { x := 0, y := -400 } 10 .LASER

/-- A sample RedHeavy asteroid of size Large (health 600) that has drifted to `(800, 760)`. -/
def sampleRock : Asteroid :=
  { MakeAsteroid C_WIDTH C_HEIGHT .REDHEAVY sampleRoll with
    transform := { position := { x := 800, y := 760 }, rotation := 0 } }

/-- A freshly constructed ship with a texture 256 pixels wide (radius 32). -/
def sampleShip : PlayerShip := PlayerShip.ctor C_WIDTH C_HEIGHT 256

/-- A sample state at the population cap, its spawn timer past the interval. -/
def crowdedApp : Application :=
  { sampleApp with asteroids := List.replicate 150 sampleRock, spawnTimer := 5 }

/-- A sample state with one asteroid, its spawn timer past the interval. -/
def readyApp : Application :=
  { sampleApp with asteroids := [sampleRock], spawnTimer := 5 }

/-- A sample state whose weapon timer stands at a quarter of a second. -/
def idleApp : Application := { sampleApp with shotTimer := 1 / 4 }

/-- A sample RedHeavy asteroid of size Large at `(800, 705)`, 95 pixels above the sample
ship, moving up at 120 pixels a second. -/
def grazingRock : Asteroid :=
  { sampleRock with
    transform := { position := { x := 800, y := 705 }, rotation := 0 }
    physics := { velocity := { x := 0, y := -120 }, rotationSpeed := 40 } }

/-- A sample state entering the collision blocks with the grazing asteroid alone. -/
def grazeApp : Application := { sampleApp with asteroids := [grazingRock] }

/-! ## Obstacle creation -/

/-- C1, as the code has it: only the `RedHeavyAsteroid` constructor calls `SetupHP`. An
obstacle `MakeAsteroid` creates as Triangle, Square or Pentagon (base health 30, 60, 90) has
health 0 and max-health 0 whatever its size class, and so not `baseHealth * sizeClass`; a
RedHeavy obstacle has health and max-health `150 * sizeClass`. -/
theorem C1_health_set_only_for_RedHeavy (w h : Int) (roll : SpawnRoll) :
    (∀ shape, shape = AsteroidShape.TRIANGLE ∨ shape = AsteroidShape.SQUARE ∨
        shape = AsteroidShape.PENTAGON →
      (MakeAsteroid w h shape roll).hp = 0 ∧ (MakeAsteroid w h shape roll).maxHP = 0 ∧
      (MakeAsteroid w h shape roll).hp ≠
        (MakeAsteroid w h shape roll).baseHP * (MakeAsteroid w h shape roll).GetSize) ∧
    (MakeAsteroid w h .TRIANGLE roll).baseHP = 30 ∧
    (MakeAsteroid w h .SQUARE roll).baseHP = 60 ∧
    (MakeAsteroid w h .PENTAGON roll).baseHP = 90 ∧
    (MakeAsteroid w h .REDHEAVY roll).hp =
      150 * (MakeAsteroid w h .REDHEAVY roll).GetSize ∧
    (MakeAsteroid w h .REDHEAVY roll).maxHP =
      150 * (MakeAsteroid w h .REDHEAVY roll).GetSize := by
  refine ⟨?_, rfl, rfl, rfl, rfl, rfl⟩
  intro shape hs
  have hsize : 0 < (Size.ofShift roll.sizeShift).toInt := by
    cases Size.ofShift roll.sizeShift <;> decide
  rcases hs with rfl | rfl | rfl
  all_goals
    refine ⟨rfl, rfl, ?_⟩
    simp only [MakeAsteroid, makeShaped, TriangleAsteroid, SquareAsteroid, PentagonAsteroid,
      Asteroid.ctor, Asteroid.GetSize]
    omega

/-! ## Firing patterns -/

/-- C6: `MakeProjectile` yields, for every position and speed, one projectile at `pos` with
velocity `(0, -s)` and damage 10 for Laser, one at `pos` with velocity `(0, -s)` and damage 3
for Bullet, and for SideBlaster two projectiles at `pos` with velocities `(-s, 0)` then
`(s, 0)`, damage 5 each; at `pos = (800, 800)`, `s = 600` the two velocities are `(-600, 0)`
and `(600, 0)`. -/
theorem C6_MakeProjectile_patterns (pos : Vector2) (s : ℚ) :
    MakeProjectile .LASER pos s =
      [{ transform := { position := pos, rotation := 0 }
         physics := { velocity := { x := 0, y := -s }, rotationSpeed := 0 }
         baseDamage := 10, type := .LASER }] ∧
    MakeProjectile .BULLET pos s =
      [{ transform := { position := pos, rotation := 0 }
         physics := { velocity := { x := 0, y := -s }, rotationSpeed := 0 }
         baseDamage := 3, type := .BULLET }] ∧
    MakeProjectile .SIDE_BLASTER pos s =
      [{ transform := { position := pos, rotation := 0 }
         physics := { velocity := { x := -s, y := 0 }, rotationSpeed := 0 }
         baseDamage := 5, type := .SIDE_BLASTER },
       { transform := { position := pos, rotation := 0 }
         physics := { velocity := { x := s, y := 0 }, rotationSpeed := 0 }
         baseDamage := 5, type := .SIDE_BLASTER }] ∧
    (MakeProjectile .SIDE_BLASTER { x := 800, y := 800 } 600).map
        (fun p => (p.GetPosition, p.physics.velocity, p.GetDamage)) =
      [(({ x := 800, y := 800 } : Vector2), ({ x := -600, y := 0 } : Vector2), (5 : Int)),
       ({ x := 800, y := 800 }, { x := 600, y := 0 }, 5)] := by
  refine ⟨rfl, rfl, rfl, ?_⟩
  simp [MakeProjectile, Projectile.ctor, Projectile.GetPosition, Projectile.GetDamage]

/-! ## Ship state machine -/

theorem Ship.TakeDamage_alive_iff (s : Ship) (dmg : Int) (hinv : s.alive = true ↔ 0 < s.hp) :
    (s.TakeDamage dmg).alive = true ↔ 0 < (s.TakeDamage dmg).hp := by
  unfold Ship.TakeDamage
  cases hal : s.alive
  · simpa [hal] using hinv
  · by_cases hle : s.hp - dmg ≤ 0
    · simp [hle]
      omega
    · simp [hle]
      omega

theorem PlayerShip.Update_alive (p : PlayerShip) (keys : MoveKeys) (dt : ℚ) :
    (p.Update keys dt).alive = p.alive := by
  unfold PlayerShip.Update
  split <;> rfl

theorem PlayerShip.Update_hp (p : PlayerShip) (keys : MoveKeys) (dt : ℚ) :
    (p.Update keys dt).hp = p.hp := by
  unfold PlayerShip.Update
  split <;> rfl

theorem PlayerShip.call_alive_iff (p : PlayerShip) (c : ShipCall)
    (hinv : p.alive = true ↔ 0 < p.hp) :
    (p.call c).alive = true ↔ 0 < (p.call c).hp := by
  cases c with
  | takeDamage dmg => exact Ship.TakeDamage_alive_iff p.toShip dmg hinv
  | update keys dt =>
    show (p.Update keys dt).alive = true ↔ 0 < (p.Update keys dt).hp
    rw [PlayerShip.Update_alive, PlayerShip.Update_hp]
    exact hinv

theorem PlayerShip.calls_alive_iff (cs : List ShipCall) (p : PlayerShip)
    (hinv : p.alive = true ↔ 0 < p.hp) :
    (p.calls cs).alive = true ↔ 0 < (p.calls cs).hp := by
  induction cs generalizing p with
  | nil => exact hinv
  | cons c cs ih => exact ih (p.call c) (PlayerShip.call_alive_iff p c hinv)

theorem PlayerShip.call_dead (p : PlayerShip) (c : ShipCall) (hdead : p.alive = false) :
    (p.call c).alive = false := by
  cases c with
  | takeDamage dmg => simp [PlayerShip.call, PlayerShip.TakeDamage, Ship.TakeDamage, hdead]
  | update keys dt =>
    show (p.Update keys dt).alive = false
    rw [PlayerShip.Update_alive]
    exact hdead

theorem PlayerShip.calls_dead (cs : List ShipCall) (p : PlayerShip) (hdead : p.alive = false) :
    (p.calls cs).alive = false := by
  induction cs generalizing p with
  | nil => exact hdead
  | cons c cs ih => exact ih (p.call c) (PlayerShip.call_dead p c hdead)

/-- C8: in every state reached from a freshly constructed ship by `TakeDamage` and `Update`
calls, `alive` holds exactly when the health is positive; a `TakeDamage` call on an alive
ship subtracts the damage and leaves the ship dead exactly when the new health is `<= 0`;
`Update` never changes `alive`; and from a dead ship every further sequence of calls ends
in a dead ship. -/
theorem C8_ship_alive_iff_health_positive (w h textureWidth : Int) (cs : List ShipCall) :
    let ship := (PlayerShip.ctor w h textureWidth).calls cs
    (ship.alive = true ↔ 0 < ship.hp) ∧
    (∀ dmg, ship.alive = true →
      (ship.TakeDamage dmg).hp = ship.hp - dmg ∧
      ((ship.TakeDamage dmg).alive = false ↔ ship.hp - dmg ≤ 0)) ∧
    (∀ keys dt, (ship.Update keys dt).alive = ship.alive ∧
      (ship.Update keys dt).hp = ship.hp) ∧
    (ship.alive = false → ∀ more, (ship.calls more).alive = false) := by
  intro ship
  refine ⟨?_, ?_, ?_, ?_⟩
  · apply PlayerShip.calls_alive_iff
    simp [PlayerShip.ctor, Ship.ctor]
  · intro dmg hal
    by_cases hle : ship.hp - dmg ≤ 0
    · simp [PlayerShip.TakeDamage, Ship.TakeDamage, hal, hle]
    · simp [PlayerShip.TakeDamage, Ship.TakeDamage, hal, hle]
  · intro keys dt
    exact ⟨PlayerShip.Update_alive ship keys dt, PlayerShip.Update_hp ship keys dt⟩
  · intro hdead more
    exact PlayerShip.calls_dead more ship hdead

/-! ## Restart -/

/-- C10: with the ship dead and the restart key pressed, right after the restart logic the
ship has health 100 equal to its max health, is alive and stands at `(800, 800)`, both
collections are empty, and the points and the spawn timer are 0; with the ship alive the
restart logic changes nothing, whether the key is pressed or not. -/
theorem C10_restart_resets (f : Frame) (app : Application) :
    (app.player.IsAlive = false ∧ f.keyR = true →
      (restartLogic f app).player.GetHP = 100 ∧
      (restartLogic f app).player.GetMaxHP = 100 ∧
      (restartLogic f app).player.IsAlive = true ∧
      (restartLogic f app).player.GetPosition = { x := 800, y := 800 } ∧
      (restartLogic f app).asteroids = [] ∧
      (restartLogic f app).projectiles = [] ∧
      (restartLogic f app).points = 0 ∧
      (restartLogic f app).spawnTimer = 0) ∧
    (app.player.IsAlive = true → restartLogic f app = app) := by
  constructor
  · rintro ⟨hdead, hkey⟩
    simp only [restartLogic, hdead, hkey]
    refine ⟨rfl, rfl, rfl, ?_, rfl, rfl, rfl, rfl⟩
    simp [Ship.GetPosition, PlayerShip.ctor, Ship.ctor, C_WIDTH, C_HEIGHT]
    norm_num
  · intro halive
    simp [restartLogic, halive]

theorem C10_restart_resets_witness :
    (deadApp.player.IsAlive = false ∧ restartFrame.keyR = true) ∧
    (restartLogic restartFrame deadApp).player.GetHP = 100 ∧
    (restartLogic restartFrame deadApp).points = 0 ∧
    sampleApp.player.IsAlive = true ∧
    restartLogic restartFrame sampleApp = sampleApp :=
  have hd : deadApp.player.IsAlive = false ∧ restartFrame.keyR = true := ⟨by decide, rfl⟩
  have h := (C10_restart_resets restartFrame deadApp).1 hd
  ⟨hd, h.1, h.2.2.2.2.2.2.1, rfl, (C10_restart_resets restartFrame sampleApp).2 rfl⟩

/-! ## Spawn step -/

/-- C9: at the spawn step of a frame (`app.spawnTimer` already holds the added `dt`), if
`spawnTimer >= spawnInterval` and fewer than 150 asteroids are live, exactly one asteroid is
appended and `spawnTimer` becomes 0; otherwise the step changes nothing, so nothing is
created and `spawnTimer` and `spawnInterval` keep their values. Hence, after a step the
cap alone blocked, a later frame of non-negative `dt` that starts with at least that timer
value, the same interval and fewer than 150 asteroids spawns one asteroid. -/
theorem C9_spawn_step (f : Frame) (app : Application) :
    (app.spawnInterval ≤ app.spawnTimer ∧ app.asteroids.length < 150 →
      (spawnAsteroids f app).asteroids =
        app.asteroids ++ [MakeAsteroid C_WIDTH C_HEIGHT app.currentShape f.spawnRoll] ∧
      (spawnAsteroids f app).asteroids.length = app.asteroids.length + 1 ∧
      (spawnAsteroids f app).spawnTimer = 0) ∧
    (¬ (app.spawnInterval ≤ app.spawnTimer ∧ app.asteroids.length < 150) →
      spawnAsteroids f app = app) ∧
    (∀ (g : Frame) (later : Application),
      app.spawnInterval ≤ app.spawnTimer → 150 ≤ app.asteroids.length →
      (spawnAsteroids f app).spawnTimer ≤ later.spawnTimer →
      later.spawnInterval = (spawnAsteroids f app).spawnInterval →
      0 ≤ g.dt → later.asteroids.length < 150 →
      (advanceSpawnTimer g later).spawnTimer = later.spawnTimer + g.dt ∧
      (spawnAsteroids g (advanceSpawnTimer g later)).asteroids.length =
        later.asteroids.length + 1 ∧
      (spawnAsteroids g (advanceSpawnTimer g later)).spawnTimer = 0) := by
  have hstep : ∀ (g : Frame) (s : Application),
      s.spawnInterval ≤ s.spawnTimer ∧ s.asteroids.length < 150 →
      (spawnAsteroids g s).asteroids =
        s.asteroids ++ [MakeAsteroid C_WIDTH C_HEIGHT s.currentShape g.spawnRoll] ∧
      (spawnAsteroids g s).asteroids.length = s.asteroids.length + 1 ∧
      (spawnAsteroids g s).spawnTimer = 0 := by
    intro g s hc
    have hc2 : s.spawnTimer ≥ s.spawnInterval ∧ s.asteroids.length < MAX_AST := hc
    simp [spawnAsteroids, hc2]
  have hskip : ∀ (g : Frame) (s : Application),
      ¬ (s.spawnInterval ≤ s.spawnTimer ∧ s.asteroids.length < 150) →
      spawnAsteroids g s = s := by
    intro g s hc
    have hc2 : ¬ (s.spawnTimer ≥ s.spawnInterval ∧ s.asteroids.length < MAX_AST) := hc
    simp only [spawnAsteroids, if_neg hc2]
  refine ⟨hstep f app, hskip f app, ?_⟩
  intro g later _ hfull hkept hint hdt hroom
  have hsame : spawnAsteroids f app = app := hskip f app (by omega)
  rw [hsame] at hkept hint
  have hready : (advanceSpawnTimer g later).spawnInterval ≤
      (advanceSpawnTimer g later).spawnTimer := by
    show later.spawnInterval ≤ later.spawnTimer + g.dt
    rw [hint]
    linarith
  have h := hstep g (advanceSpawnTimer g later) ⟨hready, hroom⟩
  exact ⟨rfl, h.2.1, h.2.2⟩

theorem C9_spawn_step_witness :
    (readyApp.spawnInterval ≤ readyApp.spawnTimer ∧ readyApp.asteroids.length < 150) ∧
    (spawnAsteroids sampleFrame readyApp).asteroids.length = 2 ∧
    (spawnAsteroids sampleFrame readyApp).spawnTimer = 0 ∧
    ¬ (crowdedApp.spawnInterval ≤ crowdedApp.spawnTimer ∧ crowdedApp.asteroids.length < 150) ∧
    spawnAsteroids sampleFrame crowdedApp = crowdedApp := by
  have hready : readyApp.spawnInterval ≤ readyApp.spawnTimer ∧
      readyApp.asteroids.length < 150 := by
    constructor
    · norm_num [readyApp, sampleApp, Application.start, RandomFloat, C_SPAWN_MIN, C_SPAWN_MAX]
    · decide
  have hfull : ¬ (crowdedApp.spawnInterval ≤ crowdedApp.spawnTimer ∧
      crowdedApp.asteroids.length < 150) := by
    rintro ⟨_, h⟩
    simp [crowdedApp] at h
  have h1 := (C9_spawn_step sampleFrame readyApp).1 hready
  exact ⟨hready, h1.2.1, h1.2.2, hfull, (C9_spawn_step sampleFrame crowdedApp).2.1 hfull⟩

/-! ## Projectile-asteroid collisions -/

theorem distanceLess_iff_sqrt (v1 v2 : Vector2) (r : ℚ) :
    distanceLess v1 v2 r = true ↔
      Real.sqrt ((Vector2DistanceSqr v1 v2 : ℚ) : ℝ) < (r : ℝ) := by
  simp only [distanceLess, Bool.and_eq_true, decide_eq_true_eq]
  constructor
  · rintro ⟨hr, hd⟩
    have hr2 : (0 : ℝ) < (r : ℝ) := by exact_mod_cast hr
    rw [Real.sqrt_lt' hr2]
    have : ((Vector2DistanceSqr v1 v2 : ℚ) : ℝ) < ((r * r : ℚ) : ℝ) := by exact_mod_cast hd
    simpa [pow_two] using this
  · intro h
    have hr2 : (0 : ℝ) < (r : ℝ) := lt_of_le_of_lt (Real.sqrt_nonneg _) h
    refine ⟨by exact_mod_cast hr2, ?_⟩
    rw [Real.sqrt_lt' hr2] at h
    have : ((Vector2DistanceSqr v1 v2 : ℚ) : ℝ) < ((r * r : ℚ) : ℝ) := by
      simpa [pow_two] using h
    exact_mod_cast this

theorem collisionLoop_end (pit : Nat) (ps : List Projectile) (as : List Asteroid) (pts : Int)
    (h : ¬ pit < ps.length) : collisionLoop pit ps as pts = (ps, as, pts) := by
  rw [collisionLoop]
  simp [h]

theorem collisionLoop_hit (pit : Nat) (ps : List Projectile) (as : List Asteroid) (pts : Int)
    (h : pit < ps.length) (as1 : List Asteroid) (destroyed : Bool)
    (hs : scanAsteroids ps[pit] as = some (as1, destroyed)) :
    collisionLoop pit ps as pts =
      collisionLoop pit (ps.eraseIdx pit) as1 (if destroyed then pts + 1 else pts) := by
  rw [collisionLoop]
  simp only [h, dite_true]
  rw [hs]

theorem collisionLoop_miss (pit : Nat) (ps : List Projectile) (as : List Asteroid) (pts : Int)
    (h : pit < ps.length) (hs : scanAsteroids ps[pit] as = none) :
    collisionLoop pit ps as pts = collisionLoop (pit + 1) ps as pts := by
  rw [collisionLoop]
  simp only [h, dite_true]
  rw [hs]


theorem scanAsteroids_none (p : Projectile) (as : List Asteroid) :
    scanAsteroids p as = none ↔ ∀ a ∈ as, projectileHits p a = false := by
  induction as with
  | nil => simp [scanAsteroids]
  | cons a rest ih =>
    by_cases hh : projectileHits p a = true
    · simp only [scanAsteroids, hh, if_true]
      constructor
      · intro h
        split at h <;> simp at h
      · intro h
        have := h a (List.mem_cons_self a rest)
        simp [hh] at this
    · simp only [scanAsteroids, hh]
      simp [ih, hh]

theorem scanAsteroids_some (p : Projectile) (as : List Asteroid)
    (hex : ∃ a ∈ as, projectileHits p a = true) :
    ∃ pre a post, as = pre ++ a :: post ∧ (∀ b ∈ pre, projectileHits p b = false) ∧
      projectileHits p a = true ∧
      scanAsteroids p as = some
        (if (a.TakeDamage p.GetDamage).IsDestroyed = true then (pre ++ post, true)
         else (pre ++ a.TakeDamage p.GetDamage :: post, false)) := by
  induction as with
  | nil => simp at hex
  | cons a rest ih =>
    by_cases hh : projectileHits p a = true
    · refine ⟨[], a, rest, rfl, by simp, hh, ?_⟩
      simp only [scanAsteroids, hh, if_true, List.nil_append]
      split <;> rfl
    · have hex2 : ∃ b ∈ rest, projectileHits p b = true := by
        obtain ⟨b, hb, hbh⟩ := hex
        rcases List.mem_cons.1 hb with rfl | hb
        · exact absurd hbh hh
        · exact ⟨b, hb, hbh⟩
      obtain ⟨pre, b, post, hdec, hpre, hb, hscan⟩ := ih hex2
      refine ⟨a :: pre, b, post, by simp [hdec], ?_, hb, ?_⟩
      · intro c hc
        rcases List.mem_cons.1 hc with rfl | hc
        · simpa using hh
        · exact hpre c hc
      · have hf : projectileHits p a = false := by simpa using hh
        simp only [scanAsteroids, hf, Bool.false_eq_true, if_false, hscan, Option.map_some']
        by_cases hd : (b.TakeDamage p.GetDamage).IsDestroyed = true <;> simp [hd]

theorem scanAsteroids_length (p : Projectile) (as as1 : List Asteroid) (d : Bool)
    (h : scanAsteroids p as = some (as1, d)) :
    as1.length + (if d = true then 1 else 0) = as.length := by
  induction as generalizing as1 with
  | nil => simp [scanAsteroids] at h
  | cons a rest ih =>
    by_cases hh : projectileHits p a = true
    · simp only [scanAsteroids, hh, if_true] at h
      split at h
      · simp at h
        obtain ⟨rfl, rfl⟩ := h
        simp
      · simp at h
        obtain ⟨rfl, rfl⟩ := h
        simp
    · have hf : projectileHits p a = false := by simpa using hh
      simp only [scanAsteroids, hf, Bool.false_eq_true, if_false] at h
      cases hsc : scanAsteroids p rest with
      | none => simp [hsc] at h
      | some r =>
        obtain ⟨x, y⟩ := r
        simp only [hsc, Option.map_some', Option.some.injEq, Prod.mk.injEq] at h
        obtain ⟨rfl, rfl⟩ := h
        have := ih x hsc
        simp only [List.length_cons]
        omega

theorem collisionLoop_sublist (pit : Nat) (ps : List Projectile) (as : List Asteroid)
    (pts : Int) : (collisionLoop pit ps as pts).1.Sublist ps := by
  induction pit, ps, as, pts using collisionLoop.induct with
  | case1 pit ps as pts h as1 destroyed hs ih =>
    rw [collisionLoop_hit pit ps as pts h as1 destroyed hs]
    simp only [dite_eq_ite] at ih
    exact ih.trans (List.eraseIdx_sublist ps pit)
  | case2 pit ps as pts h hs ih =>
    rw [collisionLoop_miss pit ps as pts h hs]
    exact ih
  | case3 pit ps as pts h =>
    rw [collisionLoop_end pit ps as pts h]

theorem collisionLoop_points (pit : Nat) (ps : List Projectile) (as : List Asteroid)
    (pts : Int) :
    (collisionLoop pit ps as pts).2.1.length ≤ as.length ∧
    (collisionLoop pit ps as pts).2.2 =
      pts + ((as.length : Int) - ((collisionLoop pit ps as pts).2.1.length : Int)) := by
  induction pit, ps, as, pts using collisionLoop.induct with
  | case1 pit ps as pts h as1 destroyed hs ih =>
    rw [collisionLoop_hit pit ps as pts h as1 destroyed hs]
    simp only [dite_eq_ite] at ih
    have hlen := scanAsteroids_length ps[pit] as as1 destroyed hs
    obtain ⟨ih1, ih2⟩ := ih
    cases destroyed
    · simp only [Bool.false_eq_true, if_false, Nat.add_zero] at hlen ih2 ⊢
      rw [← hlen]
      exact ⟨ih1, ih2⟩
    · have e : (if true = true then pts + 1 else pts) = pts + 1 := if_pos rfl
      have e1 : (if true = true then 1 else 0) = 1 := if_pos rfl
      rw [e] at ih1 ih2 ⊢
      rw [e1] at hlen
      refine ⟨by omega, ?_⟩
      rw [ih2, ← hlen]
      push_cast
      ring
  | case2 pit ps as pts h hs ih =>
    rw [collisionLoop_miss pit ps as pts h hs]
    exact ih
  | case3 pit ps as pts h =>
    rw [collisionLoop_end pit ps as pts h]
    simp


/-- C2: in the projectile-asteroid loop, when the projectile at the iterator position
overlaps at least one asteroid of the current collection, the collection splits as
`pre ++ a :: post` where no asteroid of `pre` overlaps the projectile and `a` does: `a` is the
first overlapping asteroid in storage order. The loop goes on with that projectile erased,
with `pre` and `post` unchanged, and with `a` replaced by `a` minus the projectile's damage
(or dropped, with one point added, when that health is `<= 0`); the projectile is not part
of the projectiles the loop leaves. -/
theorem C2_damage_goes_to_first_overlapping (pit : Nat) (projectiles : List Projectile)
    (asteroids : List Asteroid) (points : Int) (h : pit < projectiles.length)
    (hov : ∃ a ∈ asteroids, projectileHits projectiles[pit] a = true) :
    ∃ pre a post, asteroids = pre ++ a :: post ∧
      (∀ b ∈ pre, projectileHits projectiles[pit] b = false) ∧
      projectileHits projectiles[pit] a = true ∧
      (a.TakeDamage projectiles[pit].GetDamage).hp = a.hp - projectiles[pit].baseDamage ∧
      collisionLoop pit projectiles asteroids points =
        (if a.hp - projectiles[pit].baseDamage ≤ 0 then
          collisionLoop pit (projectiles.eraseIdx pit) (pre ++ post) (points + 1)
        else
          collisionLoop pit (projectiles.eraseIdx pit)
            (pre ++ a.TakeDamage projectiles[pit].GetDamage :: post) points) ∧
      (collisionLoop pit projectiles asteroids points).1.Sublist (projectiles.eraseIdx pit) := by
  obtain ⟨pre, a, post, hdec, hpre, ha, hscan⟩ := scanAsteroids_some projectiles[pit] asteroids hov
  have hstep : collisionLoop pit projectiles asteroids points =
      (if a.hp - projectiles[pit].baseDamage ≤ 0 then
        collisionLoop pit (projectiles.eraseIdx pit) (pre ++ post) (points + 1)
      else
        collisionLoop pit (projectiles.eraseIdx pit)
          (pre ++ a.TakeDamage projectiles[pit].GetDamage :: post) points) := by
    by_cases hd : a.hp - projectiles[pit].baseDamage ≤ 0
    · have hd2 : (a.TakeDamage projectiles[pit].GetDamage).IsDestroyed = true := by
        simpa [Asteroid.IsDestroyed, Asteroid.TakeDamage, Projectile.GetDamage] using hd
      rw [if_pos hd2] at hscan
      rw [collisionLoop_hit pit projectiles asteroids points h _ _ hscan, if_pos hd, if_pos rfl]
    · have hd2 : ¬ (a.TakeDamage projectiles[pit].GetDamage).IsDestroyed = true := by
        simpa [Asteroid.IsDestroyed, Asteroid.TakeDamage, Projectile.GetDamage] using hd
      rw [if_neg hd2] at hscan
      rw [collisionLoop_hit pit projectiles asteroids points h _ _ hscan, if_neg hd]
      simp
  refine ⟨pre, a, post, hdec, hpre, ha, rfl, hstep, ?_⟩
  rw [hstep]
  split <;> exact collisionLoop_sublist _ _ _ _

theorem sampleShot_hits_sampleRock : projectileHits sampleShot sampleRock = true := by
  simp [projectileHits, distanceLess, Vector2DistanceSqr, sampleShot, sampleRock,
    Projectile.ctor, Projectile.GetPosition, Projectile.GetRadius, Asteroid.GetPosition,
    Asteroid.GetRadius, radiusOfSize, MakeAsteroid, makeShaped, RedHeavyAsteroid,
    Asteroid.SetupHP, Asteroid.ctor, sampleRoll, Size.ofShift, Size.toInt]
  norm_num

theorem C2_damage_goes_to_first_overlapping_witness :
    0 < [sampleShot].length ∧
    (∃ a ∈ [sampleRock, sampleRock], projectileHits sampleShot a = true) ∧
    (collisionLoop 0 [sampleShot] [sampleRock, sampleRock] 0).1.Sublist
      ([sampleShot].eraseIdx 0) := by
  have h0 : 0 < [sampleShot].length := by decide
  have hov : ∃ a ∈ [sampleRock, sampleRock], projectileHits ([sampleShot][0]) a = true :=
    ⟨sampleRock, by simp, sampleShot_hits_sampleRock⟩
  obtain ⟨pre, a, post, _, _, _, _, _, hsub⟩ :=
    C2_damage_goes_to_first_overlapping 0 [sampleShot] [sampleRock, sampleRock] 0 h0 hov
  exact ⟨h0, hov, hsub⟩

/-! ## Score -/

theorem shooting_points (f : Frame) (s s1 : Application) (h : shooting f s = some s1) :
    s1.points = s.points ∧ s1.asteroids = s.asteroids := by
  unfold shooting at h
  split at h
  · simp only [Option.map_eq_some'] at h
    obtain ⟨r, _, rfl⟩ := h
    exact ⟨rfl, rfl⟩
  · simp only at h
    split at h
    · simp only [Option.some.injEq] at h
      subst h
      exact ⟨rfl, rfl⟩
    · simp only [Option.some.injEq] at h
      subst h
      exact ⟨rfl, rfl⟩

theorem spawnAsteroids_points (f : Frame) (s : Application) :
    (spawnAsteroids f s).points = s.points := by
  unfold spawnAsteroids
  split <;> rfl

theorem weaponSwitch_points (f : Frame) (s : Application) :
    (weaponSwitch f s).points = s.points := by
  unfold weaponSwitch
  split <;> rfl

theorem restartLogic_points (f : Frame) (s : Application) :
    (restartLogic f (updatePlayer f (advanceSpawnTimer f s))).points =
      (restartLogic f s).points := by
  simp only [restartLogic, updatePlayer, advanceSpawnTimer, Ship.IsAlive,
    PlayerShip.Update_alive]
  split <;> rfl

/-- C3: the projectile-asteroid block only ever shrinks the asteroid collection, and the
points after it are the points before plus the number of asteroids it removed (it removes an
asteroid only when a hit left its health `<= 0`); the asteroid-ship block, which removes the
asteroids that touch the ship or leave the bounds, leaves the points as they are. So the two
collision blocks of a frame add exactly that number, and a whole frame ends with the points
its restart logic left plus that number. -/
theorem C3_score_counts_projectile_kills (rnd : Renderer) (f : Frame) (app : Application) :
    (projectileAsteroidCollisions app).asteroids.length ≤ app.asteroids.length ∧
    (projectileAsteroidCollisions app).points =
      app.points + ((app.asteroids.length : Int) -
        ((projectileAsteroidCollisions app).asteroids.length : Int)) ∧
    (asteroidShipCollisions rnd f (projectileAsteroidCollisions app)).points =
      (projectileAsteroidCollisions app).points ∧
    (collisions rnd f app).points =
      app.points + ((app.asteroids.length : Int) -
        ((projectileAsteroidCollisions app).asteroids.length : Int)) ∧
    (∀ app1, Application.RunFrame f app = some app1 →
      ∃ mid, app1 = collisions theRenderer f mid ∧
        mid.points = (restartLogic f app).points ∧
        app1.points = (restartLogic f app).points + ((mid.asteroids.length : Int) -
          ((projectileAsteroidCollisions mid).asteroids.length : Int))) := by
  have hp := collisionLoop_points 0 app.projectiles app.asteroids app.points
  refine ⟨hp.1, hp.2, rfl, hp.2, ?_⟩
  intro app1 hrun
  simp only [Application.RunFrame, Option.map_eq_some'] at hrun
  obtain ⟨s6, hs6, rfl⟩ := hrun
  have h6 := (shooting_points f _ s6 hs6).1
  rw [weaponSwitch_points] at h6
  have h6b : s6.points = (restartLogic f app).points := by
    rw [h6]
    exact restartLogic_points f app
  refine ⟨updateProjectiles theRenderer f (spawnAsteroids f s6), rfl, ?_, ?_⟩
  · show (spawnAsteroids f s6).points = _
    rw [spawnAsteroids_points, h6b]
  · have hq := collisionLoop_points 0 (updateProjectiles theRenderer f (spawnAsteroids f s6)).projectiles
      (updateProjectiles theRenderer f (spawnAsteroids f s6)).asteroids
      (updateProjectiles theRenderer f (spawnAsteroids f s6)).points
    have hpts : (updateProjectiles theRenderer f (spawnAsteroids f s6)).points =
        (restartLogic f app).points := by
      show (spawnAsteroids f s6).points = _
      rw [spawnAsteroids_points, h6b]
    rw [← hpts]
    exact hq.2

/-! ## Asteroid-ship collisions -/

theorem removeIfCollision_append (rnd : Renderer) (dt : ℚ) (player : PlayerShip)
    (pre rest : List Asteroid) :
    removeIfCollision rnd dt player (pre ++ rest) =
      ((removeIfCollision rnd dt (removeIfCollision rnd dt player pre).1 rest).1,
       (removeIfCollision rnd dt player pre).2 ++
         (removeIfCollision rnd dt (removeIfCollision rnd dt player pre).1 rest).2) := by
  induction pre generalizing player with
  | nil => simp [removeIfCollision]
  | cons a pre ih =>
    show removeIfCollision rnd dt player (a :: (pre ++ rest)) = _
    simp only [removeIfCollision]
    rw [ih]
    split <;> simp

theorem Ship.TakeDamage_hp (s : Ship) (dmg : Int) (halive : s.alive = true) :
    (s.TakeDamage dmg).hp = s.hp - dmg := by
  unfold Ship.TakeDamage
  rw [halive]
  simp only [Bool.not_true, Bool.false_eq_true, if_false]
  split <;> rfl

theorem remove_collision_hit (rnd : Renderer) (dt : ℚ) (ship : PlayerShip) (a : Asteroid)
    (halive : ship.IsAlive = true)
    (hhit : distanceLess ship.GetPosition a.GetPosition (ship.GetRadius + a.GetRadius) = true) :
    remove_collision rnd dt ship a = (ship.TakeDamage a.GetDamage, a, true) := by
  simp [remove_collision, halive, hhit]

theorem asteroidShipCollisions_points (rnd : Renderer) (f : Frame) (app : Application) :
    (asteroidShipCollisions rnd f app).points = app.points := rfl

/-- C4: when the asteroid-ship block reaches an asteroid `a` (after the asteroids `pre`
stored before it) with the ship still alive and the centers closer than the sum of the radii,
the lambda takes `a.baseDamage * sizeClass` off the ship's health and marks `a` for removal
whatever the health of `a`: the block's result is what it keeps of `pre` followed by what it
keeps of the asteroids after `a`, processed with the damaged ship. The block never changes
the points. A fresh ship (health 100) hit by a RedHeavy asteroid of size Large (damage 80) is
left with health 20 and alive. -/
theorem C4_ship_contact_damage (rnd : Renderer) (dt : ℚ) (player : PlayerShip)
    (pre : List Asteroid) (a : Asteroid) (post : List Asteroid)
    (halive : (removeIfCollision rnd dt player pre).1.IsAlive = true)
    (hhit : distanceLess (removeIfCollision rnd dt player pre).1.GetPosition a.GetPosition
      ((removeIfCollision rnd dt player pre).1.GetRadius + a.GetRadius) = true) :
    (remove_collision rnd dt (removeIfCollision rnd dt player pre).1 a).1.hp =
      (removeIfCollision rnd dt player pre).1.hp - a.baseDamage * a.render.size.toInt ∧
    (remove_collision rnd dt (removeIfCollision rnd dt player pre).1 a).2.2 = true ∧
    removeIfCollision rnd dt player (pre ++ a :: post) =
      ((removeIfCollision rnd dt
          (remove_collision rnd dt (removeIfCollision rnd dt player pre).1 a).1 post).1,
        (removeIfCollision rnd dt player pre).2 ++
          (removeIfCollision rnd dt
            (remove_collision rnd dt (removeIfCollision rnd dt player pre).1 a).1 post).2) ∧
    (∀ (f : Frame) (app : Application), (asteroidShipCollisions rnd f app).points = app.points) ∧
    (∀ (w h textureWidth : Int) (roll : SpawnRoll), roll.sizeShift = 2 →
      (PlayerShip.ctor w h textureWidth).hp = 100 ∧
      (MakeAsteroid w h .REDHEAVY roll).GetDamage = 80 ∧
      ((PlayerShip.ctor w h textureWidth).TakeDamage
        (MakeAsteroid w h .REDHEAVY roll).GetDamage).hp = 20 ∧
      ((PlayerShip.ctor w h textureWidth).TakeDamage
        (MakeAsteroid w h .REDHEAVY roll).GetDamage).alive = true) := by
  have hrc := remove_collision_hit rnd dt _ a halive hhit
  have hal : (removeIfCollision rnd dt player pre).1.alive = true := halive
  refine ⟨?_, ?_, ?_, fun f app => rfl, ?_⟩
  · rw [hrc]
    exact Ship.TakeDamage_hp _ _ hal
  · rw [hrc]
  · rw [removeIfCollision_append]
    simp only [removeIfCollision, hrc, if_true]
  · intro w h textureWidth roll hroll
    have hdmg : (MakeAsteroid w h .REDHEAVY roll).GetDamage = 80 := by
      simp [MakeAsteroid, makeShaped, RedHeavyAsteroid, Asteroid.SetupHP, Asteroid.ctor,
        Asteroid.GetDamage, hroll, Size.ofShift, Size.toInt]
    rw [hdmg]
    refine ⟨rfl, rfl, ?_, ?_⟩ <;>
      simp [PlayerShip.TakeDamage, Ship.TakeDamage, PlayerShip.ctor, Ship.ctor]

theorem C4_ship_contact_damage_witness :
    sampleShip.IsAlive = true ∧
    distanceLess sampleShip.GetPosition sampleRock.GetPosition
      (sampleShip.GetRadius + sampleRock.GetRadius) = true ∧
    (remove_collision theRenderer (1 / 60) sampleShip sampleRock).1.hp = 20 ∧
    removeIfCollision theRenderer (1 / 60) sampleShip ([] ++ sampleRock :: []) =
      ((remove_collision theRenderer (1 / 60) sampleShip sampleRock).1, []) := by
  have halive : sampleShip.IsAlive = true := rfl
  have hhit : distanceLess sampleShip.GetPosition sampleRock.GetPosition
      (sampleShip.GetRadius + sampleRock.GetRadius) = true := by
    simp [distanceLess, Vector2DistanceSqr, sampleRock, sampleShip, Ship.GetPosition,
      PlayerShip.GetRadius, PlayerShip.ctor, Ship.ctor, Asteroid.GetPosition,
      Asteroid.GetRadius, radiusOfSize, MakeAsteroid, makeShaped, RedHeavyAsteroid,
      Asteroid.SetupHP, Asteroid.ctor, sampleRoll, Size.ofShift, Size.toInt, C_WIDTH, C_HEIGHT]
    norm_num
  have h := C4_ship_contact_damage theRenderer (1 / 60) sampleShip [] sampleRock []
    halive hhit
  refine ⟨halive, hhit, ?_, h.2.2.1⟩
  have h1 : (remove_collision theRenderer (1 / 60) sampleShip sampleRock).1.hp =
      sampleShip.hp - sampleRock.baseDamage * sampleRock.render.size.toInt := h.1
  rw [h1]
  decide

/-! ## Weapon accumulator -/

theorem fireLoop_exact (player : PlayerShip) (wt : WeaponType) (projSpeed interval : ℚ)
    (hi : 0 < interval) (n : Nat) :
    ∀ (t : ℚ) (ps : List Projectile), (n : ℚ) * interval ≤ t → t < ((n : ℚ) + 1) * interval →
      fireLoop player wt projSpeed interval t ps =
        some (ps ++ (List.replicate n (MakeProjectile wt
            { x := player.GetPosition.x, y := player.GetPosition.y - player.GetRadius }
            projSpeed)).flatten,
          t - (n : ℚ) * interval) := by
  induction n with
  | zero =>
    intro t ps _ hlt
    have hnot : ¬ t ≥ interval := by
      simp at hlt
      exact not_le.mpr hlt
    rw [fireLoop, if_neg hnot]
    simp
  | succ n ih =>
    intro t ps hle hlt
    push_cast at hle hlt
    have hge : t ≥ interval := by nlinarith
    rw [fireLoop, if_pos hge, if_pos hi]
    simp only []
    rw [ih (t - interval) _ (by linarith) (by linarith)]
    simp only [List.replicate_succ, List.flatten_cons, List.append_assoc]
    congr 2
    push_cast
    ring

/-- C5: in exact arithmetic, for a ship that is alive with fire held, fire rate `R > 0` of
the current weapon, incoming `shotTimer = t0 >= 0` and `dt >= 0`, the shooting block ends
(its catch-up loop terminates), having appended exactly `k = floor((t0 + dt) * R)` volleys of
`MakeProjectile` to the projectiles, and leaves `shotTimer = (t0 + dt) - k / R`, which lies
in `[0, 1 / R)`. -/
theorem C5_catch_up_loop_fires_floor (f : Frame) (app : Application)
    (halive : app.player.IsAlive = true) (hfire : f.keySpace = true)
    (hR : 0 < app.player.GetFireRate app.currentWeapon)
    (ht0 : 0 ≤ app.shotTimer) (hdt : 0 ≤ f.dt) :
    shooting f app = some
      { app with
        projectiles := app.projectiles ++
          (List.replicate
            (⌊(app.shotTimer + f.dt) * app.player.GetFireRate app.currentWeapon⌋).toNat
            (MakeProjectile app.currentWeapon
              { x := app.player.GetPosition.x
                y := app.player.GetPosition.y - app.player.GetRadius }
              (app.player.GetSpacing app.currentWeapon *
                app.player.GetFireRate app.currentWeapon))).flatten
        shotTimer := (app.shotTimer + f.dt) -
          ((⌊(app.shotTimer + f.dt) * app.player.GetFireRate app.currentWeapon⌋).toNat : ℚ) /
            app.player.GetFireRate app.currentWeapon } ∧
    0 ≤ (app.shotTimer + f.dt) -
      ((⌊(app.shotTimer + f.dt) * app.player.GetFireRate app.currentWeapon⌋).toNat : ℚ) /
        app.player.GetFireRate app.currentWeapon ∧
    (app.shotTimer + f.dt) -
      ((⌊(app.shotTimer + f.dt) * app.player.GetFireRate app.currentWeapon⌋).toNat : ℚ) /
        app.player.GetFireRate app.currentWeapon <
      1 / app.player.GetFireRate app.currentWeapon := by
  generalize hRdef : app.player.GetFireRate app.currentWeapon = R at *
  generalize hTdef : app.shotTimer + f.dt = T
  have hT : 0 ≤ T := by rw [← hTdef]; linarith
  have hfloor : (0 : ℤ) ≤ ⌊T * R⌋ := Int.floor_nonneg.mpr (mul_nonneg hT hR.le)
  have hk : ((⌊T * R⌋.toNat : ℕ) : ℚ) = ((⌊T * R⌋ : ℤ) : ℚ) := by
    have : ((⌊T * R⌋.toNat : ℕ) : ℤ) = ⌊T * R⌋ := Int.toNat_of_nonneg hfloor
    exact_mod_cast congrArg (fun z : ℤ => (z : ℚ)) this
  have hlo : ((⌊T * R⌋.toNat : ℕ) : ℚ) ≤ T * R := by rw [hk]; exact Int.floor_le _
  have hhi : T * R < ((⌊T * R⌋.toNat : ℕ) : ℚ) + 1 := by rw [hk]; exact Int.lt_floor_add_one _
  have hinv : 0 < 1 / R := by positivity
  have h1 : ((⌊T * R⌋.toNat : ℕ) : ℚ) * (1 / R) ≤ T := by
    rw [mul_one_div, div_le_iff₀ hR]
    exact hlo
  have h2 : T < (((⌊T * R⌋.toNat : ℕ) : ℚ) + 1) * (1 / R) := by
    rw [mul_one_div, lt_div_iff₀ hR]
    exact hhi
  refine ⟨?_, ?_, ?_⟩
  · simp only [shooting, halive, hfire, Bool.and_self, if_true, hRdef, hTdef]
    rw [fireLoop_exact app.player app.currentWeapon _ (1 / R) hinv _ T app.projectiles h1 h2]
    simp only [Option.map_some', mul_one_div]
  · rw [← mul_one_div]
    linarith
  · rw [← mul_one_div]
    linarith

theorem C5_catch_up_loop_fires_floor_witness :
    sampleApp.player.IsAlive = true ∧ fireFrame.keySpace = true ∧
    0 < sampleApp.player.GetFireRate sampleApp.currentWeapon ∧
    0 ≤ sampleApp.shotTimer ∧ 0 ≤ fireFrame.dt ∧
    (shooting fireFrame sampleApp).isSome = true := by
  have hR : 0 < sampleApp.player.GetFireRate sampleApp.currentWeapon := by
    norm_num [sampleApp, Application.start, PlayerShip.ctor, Ship.ctor, Ship.GetFireRate]
  have ht0 : 0 ≤ sampleApp.shotTimer := by
    norm_num [sampleApp, Application.start]
  have hdt : 0 ≤ fireFrame.dt := by
    norm_num [fireFrame]
  have h := C5_catch_up_loop_fires_floor fireFrame sampleApp rfl rfl hR ht0 hdt
  refine ⟨rfl, rfl, hR, ht0, hdt, ?_⟩
  rw [h.1]
  rfl

/-! ## Repeated hits -/

theorem collisionLoop_single_hit (p : Projectile) (a : Asteroid) (pts : Int)
    (hhit : projectileHits p a = true) :
    collisionLoop 0 [p] [a] pts =
      (if a.hp - p.GetDamage ≤ 0 then ([], [], pts + 1)
       else ([], [a.TakeDamage p.GetDamage], pts)) := by
  have h0 : 0 < [p].length := by simp
  by_cases hd : a.hp - p.GetDamage ≤ 0
  · have hs : scanAsteroids ([p][0]) [a] = some ([], true) := by
      simp [scanAsteroids, hhit, Asteroid.IsDestroyed, Asteroid.TakeDamage, hd]
    rw [collisionLoop_hit 0 [p] [a] pts h0 _ _ hs, if_pos hd, if_pos rfl]
    rw [collisionLoop_end]
    · rfl
    · simp
  · have hs : scanAsteroids ([p][0]) [a] = some ([a.TakeDamage p.GetDamage], false) := by
      simp [scanAsteroids, hhit, Asteroid.IsDestroyed, Asteroid.TakeDamage, hd]
    rw [collisionLoop_hit 0 [p] [a] pts h0 _ _ hs, if_neg hd]
    rw [collisionLoop_end]
    · simp
    · simp

theorem hitFrames_from (shots : List Projectile) :
    ∀ (a : Asteroid) (pts : Int), (∀ p ∈ shots, projectileHits p a = true) →
      (∀ j, 1 ≤ j → j < shots.length → 0 < a.hp - totalDamage (shots.take j)) →
      hitFrames shots [a] pts =
        (if shots = [] ∨ 0 < a.hp - totalDamage shots then
          ([{ a with hp := a.hp - totalDamage shots }], pts)
        else ([], pts + 1)) := by
  induction shots with
  | nil =>
    intro a pts _ _
    simp [hitFrames, totalDamage]
  | cons p rest ih =>
    intro a pts hhit hsurv
    have hp : projectileHits p a = true := hhit p (List.mem_cons_self p rest)
    have htot : totalDamage (p :: rest) = p.GetDamage + totalDamage rest := by
      simp [totalDamage]
    simp only [hitFrames, collisionLoop_single_hit p a pts hp]
    cases rest with
    | nil =>
      have e : totalDamage [p] = p.GetDamage := by simp [totalDamage]
      rw [e]
      by_cases hd : a.hp - p.GetDamage ≤ 0
      · have hn : ¬ ([p] = [] ∨ 0 < a.hp - p.GetDamage) := by
          rintro (h | h)
          · cases h
          · omega
        rw [if_pos hd, if_neg hn]
        rfl
      · have hy : [p] = [] ∨ 0 < a.hp - p.GetDamage := Or.inr (by omega)
        rw [if_neg hd, if_pos hy]
        rfl
    | cons q rest2 =>
      have h1 := hsurv 1 (le_refl 1) (by simp)
      have h1b : ¬ a.hp - p.GetDamage ≤ 0 := by
        simp [totalDamage] at h1
        omega
      simp only [if_neg h1b]
      have hhit2 : ∀ x ∈ q :: rest2, projectileHits x (a.TakeDamage p.GetDamage) = true := by
        intro x hx
        exact hhit x (List.mem_cons_of_mem p hx)
      have hsurv2 : ∀ j, 1 ≤ j → j < (q :: rest2).length →
          0 < (a.TakeDamage p.GetDamage).hp - totalDamage ((q :: rest2).take j) := by
        intro j hj1 hj2
        have := hsurv (j + 1) (by omega) (by simp at hj2 ⊢; omega)
        simp only [List.take_succ_cons] at this
        have e : totalDamage (p :: List.take j (q :: rest2)) =
            p.GetDamage + totalDamage (List.take j (q :: rest2)) := by
          simp [totalDamage]
        rw [e] at this
        show 0 < a.hp - p.GetDamage - _
        omega
      rw [ih (a.TakeDamage p.GetDamage) pts hhit2 hsurv2, htot]
      have e2 : (a.TakeDamage p.GetDamage).hp - totalDamage (q :: rest2) =
          a.hp - (p.GetDamage + totalDamage (q :: rest2)) := by
        show a.hp - p.GetDamage - _ = _
        omega
      rw [e2]
      simp [Asteroid.TakeDamage]

theorem hitFrames_take (a : Asteroid) (shots : List Projectile) (pts : Int) (i : Nat)
    (hhit : ∀ p ∈ shots, projectileHits p a = true)
    (hsurv : ∀ j, 1 ≤ j → j < i → 0 < a.hp - totalDamage (shots.take j)) (j : Nat)
    (hj : j ≤ i) :
    hitFrames (shots.take j) [a] pts =
      (if shots.take j = [] ∨ 0 < a.hp - totalDamage (shots.take j) then
        ([{ a with hp := a.hp - totalDamage (shots.take j) }], pts)
      else ([], pts + 1)) := by
  apply hitFrames_from
  · intro p hp
    exact hhit p (List.mem_of_mem_take hp)
  · intro k hk1 hk2
    have hkj : k < j := by
      have := List.length_take_le j shots
      omega
    rw [List.take_take, min_eq_left hkj.le]
    exact hsurv k hk1 (by omega)

/-- C7: an asteroid of health `H` is hit, in successive frames, by the projectiles of
`shots` (damages `d1, d2, ...`), each overlapping it. If after each of the first `i - 1` hits
the value `H - (d1 + ... + dj)` is positive, then after every `j < i` hits the asteroid is
still in the collection with exactly that health and no point was given, and after the `i`-th
hit it is in the collection with health `H - (d1 + ... + di)` when that is positive, and is
removed, with one point given, when that is `<= 0`. -/
theorem C7_health_after_hits (a : Asteroid) (shots : List Projectile) (pts : Int) (i : Nat)
    (hhit : ∀ p ∈ shots, projectileHits p a = true) (hi1 : 1 ≤ i) (hi : i ≤ shots.length)
    (hsurv : ∀ j, 1 ≤ j → j < i → 0 < a.hp - totalDamage (shots.take j)) :
    (∀ j, j < i → hitFrames (shots.take j) [a] pts =
      ([{ a with hp := a.hp - totalDamage (shots.take j) }], pts)) ∧
    (0 < a.hp - totalDamage (shots.take i) →
      hitFrames (shots.take i) [a] pts =
        ([{ a with hp := a.hp - totalDamage (shots.take i) }], pts)) ∧
    (a.hp - totalDamage (shots.take i) ≤ 0 →
      hitFrames (shots.take i) [a] pts = ([], pts + 1)) := by
  refine ⟨?_, ?_, ?_⟩
  · intro j hj
    rw [hitFrames_take a shots pts i hhit hsurv j hj.le]
    apply if_pos
    rcases Nat.eq_zero_or_pos j with rfl | hpos
    · exact Or.inl rfl
    · exact Or.inr (hsurv j hpos hj)
  · intro hpos
    rw [hitFrames_take a shots pts i hhit hsurv i (le_refl i)]
    exact if_pos (Or.inr hpos)
  · intro hle
    rw [hitFrames_take a shots pts i hhit hsurv i (le_refl i)]
    apply if_neg
    rintro (h | h)
    · have hlen : (shots.take i).length = i := by
        rw [List.length_take]
        exact min_eq_left hi
      rw [h] at hlen
      simp at hlen
      omega
    · omega

theorem C7_health_after_hits_witness :
    (∀ p ∈ [sampleShot, sampleShot], projectileHits p sampleRock = true) ∧
    (∀ j, 1 ≤ j → j < 2 →
      0 < sampleRock.hp - totalDamage ([sampleShot, sampleShot].take j)) ∧
    hitFrames [sampleShot, sampleShot] [sampleRock] 0 =
      ([{ sampleRock with hp := 580 }], 0) := by
  have hhit : ∀ p ∈ [sampleShot, sampleShot], projectileHits p sampleRock = true := by
    intro p hp
    simp only [List.mem_cons, List.mem_singleton, or_self, List.not_mem_nil, or_false] at hp
    rw [hp]
    exact sampleShot_hits_sampleRock
  have hsurv : ∀ j, 1 ≤ j → j < 2 →
      0 < sampleRock.hp - totalDamage ([sampleShot, sampleShot].take j) := by
    intro j h1 h2
    have hj : j = 1 := by omega
    subst hj
    decide
  have h := (C7_health_after_hits sampleRock [sampleShot, sampleShot] 0 2 hhit
    (by decide) (by decide) hsurv).2.1 (by decide)
  exact ⟨hhit, hsurv, h⟩

/-! ## Radius and contact damage -/

theorem Asteroid.call_radius_damage (rnd : Renderer) (a : Asteroid) (c : AsteroidCall) :
    (a.call rnd c).render = a.render ∧ (a.call rnd c).baseDamage = a.baseDamage := by
  cases c with
  | takeDamage dmg => exact ⟨rfl, rfl⟩
  | update dt =>
    show (a.Update rnd dt).1.render = a.render ∧ (a.Update rnd dt).1.baseDamage = a.baseDamage
    unfold Asteroid.Update
    simp only []
    split <;> exact ⟨rfl, rfl⟩

theorem Asteroid.calls_radius_damage (rnd : Renderer) (cs : List AsteroidCall) (a : Asteroid) :
    (a.calls rnd cs).render = a.render ∧ (a.calls rnd cs).baseDamage = a.baseDamage := by
  induction cs generalizing a with
  | nil => exact ⟨rfl, rfl⟩
  | cons c cs ih =>
    have h1 := Asteroid.call_radius_damage rnd a c
    have h2 := ih (a.call rnd c)
    exact ⟨h2.1.trans h1.1, h2.2.trans h1.2⟩

/-- C12: an asteroid `MakeAsteroid` creates, of any shape, has a size class in `{1, 2, 4}`,
collision radius `16 * sizeClass` and contact damage `baseDamage * sizeClass` with
`baseDamage` 5, 10, 15, 20 for Triangle, Square, Pentagon, RedHeavy (a random shape is one
of these four); and for every asteroid, radius, contact damage and size class after any
sequence of `TakeDamage` and `Update` calls are what they were before. -/
theorem C12_radius_and_damage_fixed (rnd : Renderer) (w h : Int) (roll : SpawnRoll)
    (shape : AsteroidShape) (cs : List AsteroidCall) :
    ((MakeAsteroid w h shape roll).GetSize = 1 ∨ (MakeAsteroid w h shape roll).GetSize = 2 ∨
      (MakeAsteroid w h shape roll).GetSize = 4) ∧
    (MakeAsteroid w h shape roll).GetRadius = 16 * ((MakeAsteroid w h shape roll).GetSize : ℚ) ∧
    (MakeAsteroid w h .TRIANGLE roll).GetDamage = 5 * (MakeAsteroid w h .TRIANGLE roll).GetSize ∧
    (MakeAsteroid w h .SQUARE roll).GetDamage = 10 * (MakeAsteroid w h .SQUARE roll).GetSize ∧
    (MakeAsteroid w h .PENTAGON roll).GetDamage =
      15 * (MakeAsteroid w h .PENTAGON roll).GetSize ∧
    (MakeAsteroid w h .REDHEAVY roll).GetDamage =
      20 * (MakeAsteroid w h .REDHEAVY roll).GetSize ∧
    (∃ fixed, fixed ≠ AsteroidShape.RANDOM ∧
      MakeAsteroid w h .RANDOM roll = MakeAsteroid w h fixed roll) ∧
    (∀ a : Asteroid,
      (a.calls rnd cs).GetRadius = a.GetRadius ∧ (a.calls rnd cs).GetDamage = a.GetDamage ∧
      (a.calls rnd cs).GetSize = a.GetSize) := by
  have hsize : ∀ sh, (MakeAsteroid w h sh roll).render.size = Size.ofShift roll.sizeShift := by
    intro sh
    cases sh <;> simp only [MakeAsteroid, makeShaped] <;>
      first
        | rfl
        | (cases AsteroidShape.ofRoll roll.shapeRoll <;> rfl)
  refine ⟨?_, rfl, rfl, rfl, rfl, rfl, ?_, ?_⟩
  · simp only [Asteroid.GetSize, hsize]
    cases Size.ofShift roll.sizeShift <;> simp [Size.toInt]
  · refine ⟨AsteroidShape.ofRoll roll.shapeRoll, ?_, ?_⟩
    · obtain ⟨n, hn⟩ := roll.shapeRoll
      match n, hn with
      | 0, _ => simp [AsteroidShape.ofRoll]
      | 1, _ => simp [AsteroidShape.ofRoll]
      | 2, _ => simp [AsteroidShape.ofRoll]
      | 3, _ => simp [AsteroidShape.ofRoll]
    · cases hr : AsteroidShape.ofRoll roll.shapeRoll <;> simp [MakeAsteroid, hr, makeShaped]
  · intro a
    have hc := Asteroid.calls_radius_damage rnd cs a
    simp only [Asteroid.GetRadius, Asteroid.GetDamage, Asteroid.GetSize, hc.1, hc.2, and_self]

/-! ## Obstacle motion and culling -/

/-- C17: `Asteroid::Update(dt)` leaves the asteroid at `position + velocity * dt` with
rotation `rotation + rotationSpeed * dt`, and returns `false` (out of bounds, remove) exactly
when the new position is outside the closed rectangle `[-r, W + r] x [-r, H + r]`, where
`r = 16 * sizeClass` and `W`, `H` are the window size: it returns `true` exactly when
`-r <= x <= W + r` and `-r <= y <= H + r`, so a position on the boundary is kept. -/
theorem C17_update_moves_and_culls (rnd : Renderer) (a : Asteroid) (dt : ℚ) :
    (a.Update rnd dt).1.transform.position =
      { x := a.transform.position.x + a.physics.velocity.x * dt
        y := a.transform.position.y + a.physics.velocity.y * dt } ∧
    (a.Update rnd dt).1.transform.rotation =
      a.transform.rotation + a.physics.rotationSpeed * dt ∧
    ((a.Update rnd dt).2 = true ↔
      (-(16 * (a.GetSize : ℚ)) ≤ (a.Update rnd dt).1.transform.position.x ∧
        (a.Update rnd dt).1.transform.position.x ≤ (rnd.Width : ℚ) + 16 * (a.GetSize : ℚ) ∧
        -(16 * (a.GetSize : ℚ)) ≤ (a.Update rnd dt).1.transform.position.y ∧
        (a.Update rnd dt).1.transform.position.y ≤ (rnd.Height : ℚ) + 16 * (a.GetSize : ℚ))) ∧
    ((a.Update rnd dt).2 = false ↔
      ((a.Update rnd dt).1.transform.position.x < -(16 * (a.GetSize : ℚ)) ∨
        (rnd.Width : ℚ) + 16 * (a.GetSize : ℚ) < (a.Update rnd dt).1.transform.position.x ∨
        (a.Update rnd dt).1.transform.position.y < -(16 * (a.GetSize : ℚ)) ∨
        (rnd.Height : ℚ) + 16 * (a.GetSize : ℚ) < (a.Update rnd dt).1.transform.position.y)) := by
  unfold Asteroid.Update
  simp only [Asteroid.GetRadius, radiusOfSize, Asteroid.GetSize, Vector2Add, Vector2Scale]
  split
  · rename_i hout
    refine ⟨rfl, rfl, ?_, ?_⟩
    · simp only [Bool.false_eq_true, false_iff]
      rintro ⟨h1, h2, h3, h4⟩
      rcases hout with h | h | h | h <;> linarith
    · simp only [true_iff]
      exact hout
  · rename_i hin
    refine ⟨rfl, rfl, ?_, ?_⟩
    · simp only [true_iff]
      simp only [not_or, not_lt] at hin
      exact ⟨hin.1, hin.2.1, hin.2.2.1, hin.2.2.2⟩
    · simp only [Bool.true_eq_false, false_iff]
      exact hin

/-! ## The loop against the reference fold -/

theorem specFirstOverlap_cons (p : Projectile) (a : Asteroid) (rest : List Asteroid) :
    specFirstOverlap p (a :: rest) =
      if projectileHits p a = true then some ([], a, rest)
      else (specFirstOverlap p rest).map (fun r => (a :: r.1, r.2.1, r.2.2)) := by
  unfold specFirstOverlap
  rw [List.span_eq_take_drop, List.span_eq_take_drop]
  by_cases hh : projectileHits p a = true
  · simp [hh]
  · have hf : projectileHits p a = false := by simpa using hh
    rw [List.takeWhile_cons_of_pos (p := fun a => !projectileHits p a) (by simp [hf]),
      List.dropWhile_cons_of_pos (p := fun a => !projectileHits p a) (by simp [hf]), if_neg hh]
    cases List.dropWhile (fun a => !projectileHits p a) rest with
    | nil => rfl
    | cons b r2 => rfl

theorem scanAsteroids_eq_spec (p : Projectile) (as : List Asteroid) :
    scanAsteroids p as =
      (specFirstOverlap p as).map (fun r =>
        if r.2.1.hp - p.GetDamage ≤ 0 then (r.1 ++ r.2.2, true)
        else (r.1 ++ { r.2.1 with hp := r.2.1.hp - p.GetDamage } :: r.2.2, false)) := by
  induction as with
  | nil => simp [scanAsteroids, specFirstOverlap]
  | cons a rest ih =>
    rw [specFirstOverlap_cons]
    by_cases hh : projectileHits p a = true
    · simp only [scanAsteroids, hh, if_true, Option.map_some', List.nil_append,
        Asteroid.IsDestroyed, Asteroid.TakeDamage, decide_eq_true_eq]
      split <;> rfl
    · have hf : projectileHits p a = false := by simpa using hh
      simp only [scanAsteroids, hf, Bool.false_eq_true, if_false, ih, Option.map_map]
      cases specFirstOverlap p rest with
      | none => rfl
      | some r =>
        simp only [Option.map_some', Function.comp]
        split <;> simp

theorem specResolveProjectile_of_scan_none (kept : List Projectile) (as : List Asteroid)
    (pts : Int) (p : Projectile) (hs : scanAsteroids p as = none) :
    specResolveProjectile (kept, as, pts) p = (kept ++ [p], as, pts) := by
  rw [scanAsteroids_eq_spec] at hs
  simp only [Option.map_eq_none'] at hs
  simp only [specResolveProjectile, hs]

theorem specResolveProjectile_of_scan_some (kept : List Projectile) (as as1 : List Asteroid)
    (pts : Int) (p : Projectile) (d : Bool) (hs : scanAsteroids p as = some (as1, d)) :
    specResolveProjectile (kept, as, pts) p = (kept, as1, if d = true then pts + 1 else pts) := by
  rw [scanAsteroids_eq_spec] at hs
  simp only [Option.map_eq_some'] at hs
  obtain ⟨⟨before, a, after⟩, hfo, hr⟩ := hs
  simp only [specResolveProjectile, hfo]
  simp only at hr
  split at hr
  · rename_i hle
    simp only [Prod.mk.injEq] at hr
    obtain ⟨rfl, rfl⟩ := hr
    simp [hle]
  · rename_i hle
    simp only [Prod.mk.injEq] at hr
    obtain ⟨rfl, rfl⟩ := hr
    simp [hle]

theorem collisionLoop_eq_foldl (pit : Nat) (ps : List Projectile) (as : List Asteroid)
    (pts : Int) :
    collisionLoop pit ps as pts =
      (ps.drop pit).foldl specResolveProjectile (ps.take pit, as, pts) := by
  induction pit, ps, as, pts using collisionLoop.induct with
  | case1 pit ps as pts h as1 destroyed hs ih =>
    rw [collisionLoop_hit pit ps as pts h as1 destroyed hs]
    simp only [dite_eq_ite] at ih
    rw [ih, List.drop_eq_getElem_cons h, List.foldl_cons,
      specResolveProjectile_of_scan_some _ _ _ _ _ _ hs]
    have e1 : (ps.eraseIdx pit).take pit = ps.take pit := by
      rw [List.eraseIdx_eq_take_drop_succ, List.take_append_of_le_length (by simp; omega)]
      simp [List.take_take]
    have e2 : (ps.eraseIdx pit).drop pit = ps.drop (pit + 1) := by
      rw [List.eraseIdx_eq_take_drop_succ]
      have hl : (ps.take pit).length = pit := by simp; omega
      rw [List.drop_append_eq_append_drop, hl]
      simp [List.drop_eq_nil_of_le, hl]
    rw [e1, e2]
  | case2 pit ps as pts h hs ih =>
    rw [collisionLoop_miss pit ps as pts h hs, ih, List.drop_eq_getElem_cons h,
      List.foldl_cons, specResolveProjectile_of_scan_none _ _ _ _ hs]
    rw [List.take_succ, List.getElem?_eq_getElem h]
    rfl
  | case3 pit ps as pts h =>
    rw [collisionLoop_end pit ps as pts h]
    have hle : ps.length ≤ pit := by omega
    rw [List.drop_eq_nil_of_le hle, List.take_of_length_le hle]
    rfl

theorem scanAsteroids_some_hits (p : Projectile) (as : List Asteroid)
    (r : List Asteroid × Bool) (hs : scanAsteroids p as = some r) :
    ∃ a ∈ as, projectileHits p a = true := by
  by_contra hno
  have hnone : scanAsteroids p as = none := by
    rw [scanAsteroids_none]
    intro a ha
    by_contra hh
    exact hno ⟨a, ha, by simpa using hh⟩
  rw [hnone] at hs
  cases hs

theorem scanAsteroids_body_sublist (p : Projectile) (as as1 : List Asteroid) (d : Bool)
    (hs : scanAsteroids p as = some (as1, d)) :
    (as1.map Asteroid.body).Sublist (as.map Asteroid.body) := by
  have hex := scanAsteroids_some_hits p as (as1, d) hs
  obtain ⟨pre, a, post, hdec, _, _, hscan⟩ := scanAsteroids_some p as hex
  rw [hscan] at hs
  subst hdec
  split at hs
  · simp only [Option.some.injEq, Prod.mk.injEq] at hs
    obtain ⟨rfl, _⟩ := hs
    simp only [List.map_append, List.map_cons]
    exact List.Sublist.append (List.Sublist.refl _) (List.sublist_cons_self _ _)
  · simp only [Option.some.injEq, Prod.mk.injEq] at hs
    obtain ⟨rfl, _⟩ := hs
    simp only [List.map_append, List.map_cons]
    exact List.Sublist.refl _

theorem collisionLoop_body_sublist (pit : Nat) (ps : List Projectile) (as : List Asteroid)
    (pts : Int) :
    ((collisionLoop pit ps as pts).2.1.map Asteroid.body).Sublist (as.map Asteroid.body) := by
  induction pit, ps, as, pts using collisionLoop.induct with
  | case1 pit ps as pts h as1 destroyed hs ih =>
    rw [collisionLoop_hit pit ps as pts h as1 destroyed hs]
    simp only [dite_eq_ite] at ih
    exact ih.trans (scanAsteroids_body_sublist _ _ _ _ hs)
  | case2 pit ps as pts h hs ih =>
    rw [collisionLoop_miss pit ps as pts h hs]
    exact ih
  | case3 pit ps as pts h =>
    rw [collisionLoop_end pit ps as pts h]

/-- C19: the projectile-asteroid loop, which erases from both vectors while it iterates,
computes exactly the reference fold of the specification: every projectile is visited once,
in storage order, against the obstacles as they are at its turn. In that fold a projectile is
kept (appended after those kept before it) exactly when it overlaps no obstacle present at
its turn. So the projectiles left are a sublist of the original projectiles (original
relative order), and the obstacles left are, health apart, a sublist of the original
obstacles (original relative order). -/
theorem C19_loop_equals_reference_fold (projectiles : List Projectile)
    (asteroids : List Asteroid) (points : Int) :
    collisionLoop 0 projectiles asteroids points = specResolve projectiles asteroids points ∧
    (∀ (state : List Projectile × List Asteroid × Int) (p : Projectile),
      (specResolveProjectile state p).1 =
        if ∃ a ∈ state.2.1, projectileHits p a = true then state.1 else state.1 ++ [p]) ∧
    (collisionLoop 0 projectiles asteroids points).1.Sublist projectiles ∧
    ((collisionLoop 0 projectiles asteroids points).2.1.map Asteroid.body).Sublist
      (asteroids.map Asteroid.body) := by
  refine ⟨?_, ?_, collisionLoop_sublist 0 projectiles asteroids points,
    collisionLoop_body_sublist 0 projectiles asteroids points⟩
  · rw [collisionLoop_eq_foldl]
    rfl
  · rintro ⟨kept, as, pts⟩ p
    cases hs : scanAsteroids p as with
    | none =>
      rw [specResolveProjectile_of_scan_none kept as pts p hs]
      have hno := (scanAsteroids_none p as).1 hs
      have : ¬ ∃ a ∈ as, projectileHits p a = true := by
        rintro ⟨a, ha, hh⟩
        rw [hno a ha] at hh
        cases hh
      simp only [this, if_false]
    | some r =>
      obtain ⟨as1, d⟩ := r
      rw [specResolveProjectile_of_scan_some kept as as1 pts p d hs]
      have hex := scanAsteroids_some_hits p as (as1, d) hs
      simp only [hex, if_true]

/-! ## Several projectiles on one obstacle -/

theorem foldl_single_asteroid (shots : List Projectile) :
    ∀ (a : Asteroid) (kept : List Projectile) (pts : Int),
      (∀ j, 1 ≤ j → j ≤ (shots.filter (fun p => projectileHits p a)).length →
        0 < a.hp - totalDamage ((shots.filter (fun p => projectileHits p a)).take j)) →
      shots.foldl specResolveProjectile (kept, [a], pts) =
        (kept ++ shots.filter (fun p => !projectileHits p a),
          [{ a with hp := a.hp - totalDamage (shots.filter (fun p => projectileHits p a)) }],
          pts) := by
  induction shots with
  | nil =>
    intro a kept pts _
    simp [totalDamage]
  | cons p rest ih =>
    intro a kept pts hsurv
    by_cases hh : projectileHits p a = true
    · have hfil : (p :: rest).filter (fun q => projectileHits q a) =
          p :: rest.filter (fun q => projectileHits q a) := by
        simp [List.filter_cons, hh]
      rw [hfil] at hsurv
      have h1 := hsurv 1 (le_refl 1) (by simp)
      have h1b : ¬ a.hp - p.GetDamage ≤ 0 := by
        simp [totalDamage] at h1
        omega
      have hs : scanAsteroids p [a] = some ([a.TakeDamage p.GetDamage], false) := by
        simp [scanAsteroids, hh, Asteroid.IsDestroyed, Asteroid.TakeDamage, h1b]
      rw [List.foldl_cons, specResolveProjectile_of_scan_some kept [a] _ pts p false hs]
      simp only [Bool.false_eq_true, if_false]
      have hsurv2 : ∀ j, 1 ≤ j →
          j ≤ (rest.filter (fun q => projectileHits q (a.TakeDamage p.GetDamage))).length →
          0 < (a.TakeDamage p.GetDamage).hp - totalDamage
            ((rest.filter (fun q => projectileHits q (a.TakeDamage p.GetDamage))).take j) := by
        intro j hj1 hj2
        have := hsurv (j + 1) (by omega) (by
          simp only [List.length_cons]
          exact Nat.succ_le_succ hj2)
        simp only [List.take_succ_cons] at this
        have e : ∀ l : List Projectile, totalDamage (p :: l) = p.GetDamage + totalDamage l := by
          intro l
          simp [totalDamage]
        rw [e] at this
        show 0 < a.hp - p.GetDamage - _
        have e3 : (fun q => projectileHits q (a.TakeDamage p.GetDamage)) =
            (fun q => projectileHits q a) := rfl
        rw [e3]
        omega
      rw [ih (a.TakeDamage p.GetDamage) kept pts hsurv2, hfil]
      have hnf : (p :: rest).filter (fun q => !projectileHits q a) =
          rest.filter (fun q => !projectileHits q a) := by
        simp [List.filter_cons, hh]
      rw [hnf]
      have e : totalDamage (p :: rest.filter (fun q => projectileHits q a)) =
          p.GetDamage + totalDamage (rest.filter (fun q => projectileHits q a)) := by
        simp [totalDamage]
      rw [e]
      have e2 : (a.TakeDamage p.GetDamage).hp - totalDamage
          (rest.filter (fun q => projectileHits q (a.TakeDamage p.GetDamage))) =
          a.hp - (p.GetDamage + totalDamage (rest.filter (fun q => projectileHits q a))) := by
        show a.hp - p.GetDamage - totalDamage (rest.filter (fun q => projectileHits q a)) = _
        omega
      rw [e2]
      rfl
    · have hf : projectileHits p a = false := by simpa using hh
      have hfil : (p :: rest).filter (fun q => projectileHits q a) =
          rest.filter (fun q => projectileHits q a) := by
        simp [List.filter_cons, hf]
      have hnf : (p :: rest).filter (fun q => !projectileHits q a) =
          p :: rest.filter (fun q => !projectileHits q a) := by
        simp [List.filter_cons, hf]
      rw [hfil] at hsurv
      have hs : scanAsteroids p [a] = none := by
        simp [scanAsteroids, hf]
      rw [List.foldl_cons, specResolveProjectile_of_scan_none kept [a] pts p hs,
        ih a (kept ++ [p]) pts hsurv, hfil, hnf]
      simp

/-- C11, as the code has it: nothing limits an obstacle to one hit per pass. For an obstacle
that is alone in the collection, every projectile of the pass that overlaps it applies its
damage to it, one after the other, for as long as its health stays positive: the pass leaves
exactly the projectiles that do not overlap it, in order, and the obstacle with its health
lowered by the sum of the damages of all the overlapping projectiles. -/
theorem C11_every_overlapping_projectile_damages (shots : List Projectile) (a : Asteroid)
    (pts : Int)
    (hsurv : ∀ j, 1 ≤ j → j ≤ (shots.filter (fun p => projectileHits p a)).length →
      0 < a.hp - totalDamage ((shots.filter (fun p => projectileHits p a)).take j)) :
    collisionLoop 0 shots [a] pts =
      (shots.filter (fun p => !projectileHits p a),
        [{ a with hp := a.hp - totalDamage (shots.filter (fun p => projectileHits p a)) }],
        pts) := by
  rw [collisionLoop_eq_foldl, List.drop_zero, List.take_zero,
    foldl_single_asteroid shots a [] pts hsurv, List.nil_append]

theorem sampleShots_filter :
    [sampleShot, sampleShot].filter (fun p => projectileHits p sampleRock) =
      [sampleShot, sampleShot] ∧
    [sampleShot, sampleShot].filter (fun p => !projectileHits p sampleRock) = [] := by
  simp [List.filter_cons, sampleShot_hits_sampleRock]

theorem sampleShots_survived : ∀ j, 1 ≤ j →
    j ≤ ([sampleShot, sampleShot].filter (fun p => projectileHits p sampleRock)).length →
    0 < sampleRock.hp - totalDamage
      (([sampleShot, sampleShot].filter (fun p => projectileHits p sampleRock)).take j) := by
  intro j h1 h2
  rw [sampleShots_filter.1] at h2 ⊢
  simp only [List.length_cons, List.length_nil] at h2
  have hj : j = 1 ∨ j = 2 := by omega
  rcases hj with rfl | rfl <;> decide

theorem C11_every_overlapping_projectile_damages_witness :
    (∀ j, 1 ≤ j →
      j ≤ ([sampleShot, sampleShot].filter (fun p => projectileHits p sampleRock)).length →
      0 < sampleRock.hp - totalDamage
        (([sampleShot, sampleShot].filter (fun p => projectileHits p sampleRock)).take j)) ∧
    (collisionLoop 0 [sampleShot, sampleShot] [sampleRock] 7).2.1.length = 1 :=
  ⟨sampleShots_survived, by
    rw [C11_every_overlapping_projectile_damages [sampleShot, sampleShot] sampleRock 7
      sampleShots_survived]
    rfl⟩

/-- Two laser projectiles (damage 10 each) overlap one RedHeavy obstacle of health 600 in
the same pass: both are consumed and the obstacle is left with health 580, so two projectiles
applied damage to it in one pass. -/
theorem C11_two_projectiles_damage_one_obstacle :
    sampleRock.hp = 600 ∧ sampleShot.GetDamage = 10 ∧
    collisionLoop 0 [sampleShot, sampleShot] [sampleRock] 0 =
      ([], [{ sampleRock with hp := 580 }], 0) ∧
    ¬ ([sampleShot, sampleShot].length -
        (collisionLoop 0 [sampleShot, sampleShot] [sampleRock] 0).1.length ≤ 1) := by
  have h : collisionLoop 0 [sampleShot, sampleShot] [sampleRock] 0 =
      ([], [{ sampleRock with hp := 580 }], 0) := by
    rw [collisionLoop_eq_foldl, List.drop_zero, List.take_zero,
      foldl_single_asteroid [sampleShot, sampleShot] sampleRock [] 0 sampleShots_survived,
      sampleShots_filter.1, sampleShots_filter.2]
    rfl
  refine ⟨by decide, by decide, h, ?_⟩
  rw [h]
  decide

/-! ## Ship health range -/

theorem PlayerShip.call_health_range (B : Int) (p : PlayerShip) (c : ShipCall)
    (hc : ∀ d, c = ShipCall.takeDamage d → 0 ≤ d ∧ d ≤ B)
    (hinv : p.hp ≤ p.maxHP ∧ -B < p.hp ∧ (p.alive = true ↔ 0 < p.hp)) :
    (p.call c).maxHP = p.maxHP ∧ (p.call c).hp ≤ (p.call c).maxHP ∧ -B < (p.call c).hp ∧
      ((p.call c).alive = true ↔ 0 < (p.call c).hp) := by
  have hal := PlayerShip.call_alive_iff p c hinv.2.2
  cases c with
  | takeDamage d =>
    obtain ⟨hd0, hdB⟩ := hc d rfl
    refine ⟨?_, ?_, ?_, hal⟩
    · show (p.toShip.TakeDamage d).maxHP = p.maxHP
      unfold Ship.TakeDamage
      split
      · rfl
      · simp only []
        split <;> rfl
    · show (p.toShip.TakeDamage d).hp ≤ (p.toShip.TakeDamage d).maxHP
      unfold Ship.TakeDamage
      split
      · exact hinv.1
      · simp only []
        split <;> simp only [] <;> omega
    · show -B < (p.toShip.TakeDamage d).hp
      cases hpa : p.alive
      · have : p.toShip.TakeDamage d = p.toShip := by
          simp [Ship.TakeDamage, hpa]
        rw [this]
        exact hinv.2.1
      · rw [Ship.TakeDamage_hp p.toShip d hpa]
        have := hinv.2.2.1 hpa
        omega
  | update keys dt =>
    refine ⟨?_, ?_, ?_, hal⟩
    · show (p.Update keys dt).maxHP = p.maxHP
      unfold PlayerShip.Update
      split <;> rfl
    · show (p.Update keys dt).hp ≤ (p.Update keys dt).maxHP
      have : (p.Update keys dt).maxHP = p.maxHP := by
        unfold PlayerShip.Update
        split <;> rfl
      rw [this, PlayerShip.Update_hp]
      exact hinv.1
    · show -B < (p.Update keys dt).hp
      rw [PlayerShip.Update_hp]
      exact hinv.2.1

theorem PlayerShip.calls_health_range (B : Int) (cs : List ShipCall) (p : PlayerShip)
    (hc : ∀ d, ShipCall.takeDamage d ∈ cs → 0 ≤ d ∧ d ≤ B)
    (hinv : p.hp ≤ p.maxHP ∧ -B < p.hp ∧ (p.alive = true ↔ 0 < p.hp)) :
    (p.calls cs).maxHP = p.maxHP ∧ (p.calls cs).hp ≤ (p.calls cs).maxHP ∧
      -B < (p.calls cs).hp ∧ ((p.calls cs).alive = true ↔ 0 < (p.calls cs).hp) := by
  induction cs generalizing p with
  | nil => exact ⟨rfl, hinv.1, hinv.2.1, hinv.2.2⟩
  | cons c cs ih =>
    have h1 := PlayerShip.call_health_range B p c
      (fun d hd => hc d (by rw [hd]; exact List.mem_cons_self _ _)) hinv
    have h2 := ih (p.call c) (fun d hd => hc d (List.mem_cons_of_mem _ hd))
      ⟨h1.2.1, h1.2.2.1, h1.2.2.2⟩
    exact ⟨h2.1.trans h1.1, h2.2⟩

/-- C15, as the code has it: `TakeDamage` does not clamp. In every state reached from a
freshly constructed ship by `TakeDamage` calls with damages between 0 and `B` (and `Update`
calls), the max health is 100, `health <= maxHealth`, the health is positive exactly while
the ship is alive, and `-B < health`: the hit that kills can leave the health below 0, by
less than its damage. The contact damage of every obstacle `MakeAsteroid` creates is between
5 and 80, so `-80 < health <= 100`. -/
theorem C15_health_between_minus_damage_and_max (w h textureWidth : Int) (B : Int)
    (cs : List ShipCall) (hB : 0 ≤ B)
    (hc : ∀ d, ShipCall.takeDamage d ∈ cs → 0 ≤ d ∧ d ≤ B) :
    ((PlayerShip.ctor w h textureWidth).calls cs).maxHP = 100 ∧
    ((PlayerShip.ctor w h textureWidth).calls cs).hp ≤
      ((PlayerShip.ctor w h textureWidth).calls cs).maxHP ∧
    -B < ((PlayerShip.ctor w h textureWidth).calls cs).hp ∧
    (((PlayerShip.ctor w h textureWidth).calls cs).alive = true ↔
      0 < ((PlayerShip.ctor w h textureWidth).calls cs).hp) ∧
    (∀ (shape : AsteroidShape) (roll : SpawnRoll),
      5 ≤ (MakeAsteroid w h shape roll).GetDamage ∧
      (MakeAsteroid w h shape roll).GetDamage ≤ 80) := by
  have hinit : (PlayerShip.ctor w h textureWidth).hp ≤ (PlayerShip.ctor w h textureWidth).maxHP ∧
      -B < (PlayerShip.ctor w h textureWidth).hp ∧
      ((PlayerShip.ctor w h textureWidth).alive = true ↔
        0 < (PlayerShip.ctor w h textureWidth).hp) := by
    refine ⟨le_refl _, ?_, ?_⟩
    · show -B < 100
      omega
    · simp [PlayerShip.ctor, Ship.ctor]
  have hr := PlayerShip.calls_health_range B cs (PlayerShip.ctor w h textureWidth) hc hinit
  refine ⟨hr.1, hr.2.1, hr.2.2.1, hr.2.2.2, ?_⟩
  intro shape roll
  have hsz : ∀ sz : Size, 1 ≤ sz.toInt ∧ sz.toInt ≤ 4 := by
    intro sz
    cases sz <;> decide
  have key : ∀ sh, sh ≠ AsteroidShape.RANDOM →
      5 ≤ (makeShaped w h roll sh).GetDamage ∧ (makeShaped w h roll sh).GetDamage ≤ 80 := by
    intro sh _
    have := hsz (Size.ofShift roll.sizeShift)
    cases sh <;>
      simp only [makeShaped, TriangleAsteroid, SquareAsteroid, PentagonAsteroid,
        RedHeavyAsteroid, Asteroid.SetupHP, Asteroid.ctor, Asteroid.GetDamage] <;> omega
  cases shape with
  | RANDOM =>
    simp only [MakeAsteroid]
    have := hsz (Size.ofShift roll.sizeShift)
    cases AsteroidShape.ofRoll roll.shapeRoll <;>
      simp only [makeShaped, TriangleAsteroid, SquareAsteroid, PentagonAsteroid,
        RedHeavyAsteroid, Asteroid.SetupHP, Asteroid.ctor, Asteroid.GetDamage] <;> omega
  | TRIANGLE => exact key _ (by decide)
  | SQUARE => exact key _ (by decide)
  | PENTAGON => exact key _ (by decide)
  | REDHEAVY => exact key _ (by decide)

theorem C15_health_between_minus_damage_and_max_witness :
    (0 : Int) ≤ 80 ∧
    (∀ d, ShipCall.takeDamage d ∈ [ShipCall.takeDamage 80, ShipCall.takeDamage 80] →
      0 ≤ d ∧ d ≤ 80) ∧
    -80 < ((PlayerShip.ctor C_WIDTH C_HEIGHT 256).calls
      [ShipCall.takeDamage 80, ShipCall.takeDamage 80]).hp := by
  have hc : ∀ d, ShipCall.takeDamage d ∈ [ShipCall.takeDamage 80, ShipCall.takeDamage 80] →
      0 ≤ d ∧ d ≤ 80 := by
    intro d hd
    simp only [List.mem_cons, ShipCall.takeDamage.injEq, List.mem_singleton, or_self,
      List.not_mem_nil, or_false] at hd
    omega
  exact ⟨by decide, hc,
    (C15_health_between_minus_damage_and_max C_WIDTH C_HEIGHT 256 80
      [ShipCall.takeDamage 80, ShipCall.takeDamage 80] (by decide) hc).2.2.1⟩

/-- A fresh ship (health 100) collides with two RedHeavy obstacles of size Large (contact
damage 80 each): the first leaves health 20, the second leaves health -60, below 0. -/
theorem C15_health_goes_negative :
    sampleRock.GetDamage = 80 ∧
    (sampleShip.calls [ShipCall.takeDamage sampleRock.GetDamage]).hp = 20 ∧
    (sampleShip.calls [ShipCall.takeDamage sampleRock.GetDamage,
      ShipCall.takeDamage sampleRock.GetDamage]).hp = -60 ∧
    ¬ (0 ≤ (sampleShip.calls [ShipCall.takeDamage sampleRock.GetDamage,
      ShipCall.takeDamage sampleRock.GetDamage]).hp) := by
  decide

/-! ## The Triangle scenario -/

/-- C14, as the code has it: a Triangle obstacle is created with health 0 (its constructor
never calls `SetupHP`), not with `30 * sizeClass` (60 for size Medium). The first Laser
projectile (damage 10) that reaches it, here fired at its own position, removes it and gives
the point: one projectile is consumed, not six, and the score is 1 after the first hit. -/
theorem C14_triangle_removed_by_first_laser (w h : Int) (roll : SpawnRoll) (speed : ℚ)
    (pts : Int) :
    (MakeAsteroid w h .TRIANGLE roll).hp = 0 ∧
    (roll.sizeShift = 1 →
      (MakeAsteroid w h .TRIANGLE roll).render.size = Size.MEDIUM ∧
      (MakeAsteroid w h .TRIANGLE roll).baseHP * (MakeAsteroid w h .TRIANGLE roll).GetSize
        = 60) ∧
    (MakeProjectile .LASER (MakeAsteroid w h .TRIANGLE roll).GetPosition speed).map
      Projectile.GetDamage = [10] ∧
    collisionLoop 0 (MakeProjectile .LASER (MakeAsteroid w h .TRIANGLE roll).GetPosition speed)
      [MakeAsteroid w h .TRIANGLE roll] pts = ([], [], pts + 1) ∧
    hitFrames (MakeProjectile .LASER (MakeAsteroid w h .TRIANGLE roll).GetPosition speed)
      [MakeAsteroid w h .TRIANGLE roll] pts = ([], pts + 1) := by
  have hsz : (0 : ℚ) < radiusOfSize (Size.ofShift roll.sizeShift) := by
    unfold radiusOfSize
    cases Size.ofShift roll.sizeShift <;> norm_num [Size.toInt]
  have hhit : projectileHits
      (Projectile.ctor (MakeAsteroid w h .TRIANGLE roll).GetPosition
        { x := 0, y := -speed } 10 .LASER)
      (MakeAsteroid w h .TRIANGLE roll) = true := by
    have hr : (MakeAsteroid w h .TRIANGLE roll).GetRadius =
        radiusOfSize (Size.ofShift roll.sizeShift) := rfl
    have hpr : (Projectile.ctor (MakeAsteroid w h .TRIANGLE roll).GetPosition
        { x := 0, y := -speed } 10 .LASER).GetRadius = 2 := by
      simp [Projectile.GetRadius, Projectile.ctor]
    simp only [projectileHits, distanceLess, Vector2DistanceSqr, Projectile.GetPosition,
      Projectile.ctor, hr, sub_self, mul_zero, add_zero,
      Bool.and_eq_true, decide_eq_true_eq]
    rw [show (Projectile.GetRadius
        { transform := { position := (MakeAsteroid w h .TRIANGLE roll).GetPosition, rotation := 0 }
          physics := { velocity := { x := 0, y := -speed }, rotationSpeed := 0 }
          baseDamage := 10, type := WeaponType.LASER }) = 2 from hpr]
    constructor
    · linarith
    · nlinarith
  have hloop := collisionLoop_single_hit _ _ pts hhit
  have hzero : (MakeAsteroid w h .TRIANGLE roll).hp -
      (Projectile.ctor (MakeAsteroid w h .TRIANGLE roll).GetPosition
        { x := 0, y := -speed } 10 .LASER).GetDamage ≤ 0 := by
    show (0 : Int) - 10 ≤ 0
    decide
  rw [if_pos hzero] at hloop
  refine ⟨rfl, ?_, rfl, hloop, ?_⟩
  · intro hs
    simp [MakeAsteroid, makeShaped, TriangleAsteroid, Asteroid.ctor, Asteroid.GetSize, hs,
      Size.ofShift, Size.toInt]
  · show hitFrames [_] _ pts = _
    simp only [hitFrames, hloop]

/-! ## Order of the two collision blocks -/

theorem RunFrame_collisions (f : Frame) (app app1 : Application)
    (hrun : Application.RunFrame f app = some app1) :
    ∃ s6, shooting f (weaponSwitch f (shapeSwitch f (restartLogic f (updatePlayer f
        (advanceSpawnTimer f app))))) = some s6 ∧
      app1 = collisions theRenderer f (updateProjectiles theRenderer f (spawnAsteroids f s6)) := by
  simp only [Application.RunFrame, Option.map_eq_some'] at hrun
  obtain ⟨s6, hs6, rfl⟩ := hrun
  exact ⟨s6, hs6, rfl⟩

/-- C16: the projectile-asteroid block does not touch the ship, and the ship the two
collision blocks leave is the ship the asteroid-ship pass computes from the asteroids that
survive the projectile-asteroid block, and from nothing else of the asteroids; this holds
for the collision stage of every frame. In particular when the only asteroid is destroyed by
a projectile, the ship is left as it was, whether or not the asteroid overlapped it. -/
theorem C16_destroyed_obstacle_spares_ship (rnd : Renderer) (f : Frame) (app : Application) :
    (projectileAsteroidCollisions app).player = app.player ∧
    (collisions rnd f app).player =
      (removeIfCollision rnd f.dt app.player (projectileAsteroidCollisions app).asteroids).1 ∧
    (collisions rnd f app).asteroids =
      (removeIfCollision rnd f.dt app.player (projectileAsteroidCollisions app).asteroids).2 ∧
    (∀ (p : Projectile) (a : Asteroid), app.projectiles = [p] → app.asteroids = [a] →
      projectileHits p a = true → a.hp - p.GetDamage ≤ 0 →
      (collisions rnd f app).player = app.player ∧ (collisions rnd f app).asteroids = [] ∧
      (collisions rnd f app).points = app.points + 1) ∧
    (∀ app1, Application.RunFrame f app = some app1 →
      ∃ mid, app1 = collisions theRenderer f mid ∧
        app1.player = (removeIfCollision theRenderer f.dt mid.player
          (projectileAsteroidCollisions mid).asteroids).1) := by
  refine ⟨rfl, rfl, rfl, ?_, ?_⟩
  · intro p a hp ha hhit hdead
    have hloop := collisionLoop_single_hit p a app.points hhit
    rw [if_pos hdead] at hloop
    simp only [collisions, asteroidShipCollisions, projectileAsteroidCollisions, hp, ha, hloop,
      removeIfCollision, and_self]
  · intro app1 hrun
    obtain ⟨s6, _, rfl⟩ := RunFrame_collisions f app app1 hrun
    exact ⟨_, rfl, rfl⟩

/-! ## Idle weapon timer -/

theorem fireLoop_lt (player : PlayerShip) (wt : WeaponType) (projSpeed interval t : ℚ)
    (ps : List Projectile) (hlt : t < interval) :
    fireLoop player wt projSpeed interval t ps = some (ps, t) := by
  rw [fireLoop, if_neg (not_le.mpr hlt)]

theorem fmodf_of_pos (x y : ℚ) (hy : 0 < y) (hx : 0 ≤ x) :
    fmodf x y = x - (⌊x / y⌋ : ℚ) * y ∧ 0 ≤ fmodf x y ∧ fmodf x y < y := by
  have hq : 0 ≤ x / y := div_nonneg hx hy.le
  have e : fmodf x y = x - (⌊x / y⌋ : ℚ) * y := by
    simp only [fmodf, hq, if_true]
    ring
  have h1 : (⌊x / y⌋ : ℚ) ≤ x / y := Int.floor_le _
  have h2 : x / y < (⌊x / y⌋ : ℚ) + 1 := Int.lt_floor_add_one _
  rw [le_div_iff₀ hy] at h1
  rw [div_lt_iff₀ hy] at h2
  refine ⟨e, ?_, ?_⟩
  · rw [e]
    linarith
  · rw [e]
    linarith

/-- C13: in exact arithmetic, on a frame where the ship is dead or fire is not held, with
fire rate `R > 0` of the current weapon and `interval = 1 / R`, the shooting block ends and
creates no projectile. If the incoming `shotTimer` exceeds `interval`, the new `shotTimer`
is `fmodf(shotTimer, interval) = shotTimer - floor(shotTimer / interval) * interval`, the
remainder modulo `interval`: it lies in `[0, interval)` and differs from the old value by an
integer multiple of `interval`. Otherwise nothing changes. Either way the new `shotTimer` is
at most `interval`, so a following firing frame with the same fire rate and `dt < interval`
appends at most one volley. -/
theorem C13_idle_timer_folds_back (f : Frame) (app : Application)
    (hidle : (app.player.IsAlive && f.keySpace) = false)
    (hR : 0 < app.player.GetFireRate app.currentWeapon) :
    ∃ app1, shooting f app = some app1 ∧ app1.projectiles = app.projectiles ∧
      (1 / app.player.GetFireRate app.currentWeapon < app.shotTimer →
        app1.shotTimer = fmodf app.shotTimer (1 / app.player.GetFireRate app.currentWeapon) ∧
        app1.shotTimer = app.shotTimer -
          (⌊app.shotTimer / (1 / app.player.GetFireRate app.currentWeapon)⌋ : ℚ) *
            (1 / app.player.GetFireRate app.currentWeapon) ∧
        0 ≤ app1.shotTimer ∧
        app1.shotTimer < 1 / app.player.GetFireRate app.currentWeapon) ∧
      (app.shotTimer ≤ 1 / app.player.GetFireRate app.currentWeapon → app1 = app) ∧
      app1.shotTimer ≤ 1 / app.player.GetFireRate app.currentWeapon ∧
      (∀ (g : Frame) (next : Application),
        next.shotTimer = app1.shotTimer →
        next.player.GetFireRate next.currentWeapon =
          app.player.GetFireRate app.currentWeapon →
        next.player.IsAlive = true → g.keySpace = true →
        g.dt < 1 / app.player.GetFireRate app.currentWeapon →
        ∃ k, k ≤ 1 ∧ shooting g next = some
          { next with
            projectiles := next.projectiles ++
              (List.replicate k
                (MakeProjectile next.currentWeapon
                  { x := next.player.GetPosition.x
                    y := next.player.GetPosition.y - next.player.GetRadius }
                  (next.player.GetSpacing next.currentWeapon *
                    next.player.GetFireRate next.currentWeapon))).flatten
            shotTimer := next.shotTimer + g.dt -
              (k : ℚ) * (1 / app.player.GetFireRate app.currentWeapon) }) := by
  generalize hRdef : app.player.GetFireRate app.currentWeapon = R at *
  have hi : 0 < 1 / R := by positivity
  have hnext : ∀ t : ℚ, t ≤ 1 / R → ∀ (g : Frame) (next : Application),
      next.shotTimer = t → next.player.GetFireRate next.currentWeapon = R →
      next.player.IsAlive = true → g.keySpace = true → g.dt < 1 / R →
      ∃ k, k ≤ 1 ∧ shooting g next = some
        { next with
          projectiles := next.projectiles ++
            (List.replicate k
              (MakeProjectile next.currentWeapon
                { x := next.player.GetPosition.x
                  y := next.player.GetPosition.y - next.player.GetRadius }
                (next.player.GetSpacing next.currentWeapon *
                  next.player.GetFireRate next.currentWeapon))).flatten
          shotTimer := next.shotTimer + g.dt - (k : ℚ) * (1 / R) } := by
    intro t ht g next hts hrate halive hfire hdt
    by_cases hlt : next.shotTimer + g.dt < 1 / R
    · refine ⟨0, by decide, ?_⟩
      simp only [shooting, halive, hfire, Bool.and_self, if_true, hrate]
      rw [fireLoop_lt _ _ _ _ _ _ hlt]
      simp
    · refine ⟨1, le_refl 1, ?_⟩
      simp only [shooting, halive, hfire, Bool.and_self, if_true, hrate]
      rw [fireLoop_exact next.player next.currentWeapon _ (1 / R) hi 1 _ _
        (by push_cast; linarith) (by push_cast; linarith)]
      simp
  simp only [shooting, hidle, Bool.false_eq_true, if_false, hRdef]
  by_cases hgt : app.shotTimer > 1 / R
  · have hx : 0 ≤ app.shotTimer := by linarith
    have hf := fmodf_of_pos app.shotTimer (1 / R) hi hx
    refine ⟨{ app with shotTimer := fmodf app.shotTimer (1 / R) }, by rw [if_pos hgt], rfl,
      ?_, ?_, ?_, ?_⟩
    · intro _
      exact ⟨rfl, hf.1, hf.2.1, hf.2.2⟩
    · intro hle
      exact absurd hgt (not_lt.mpr hle)
    · exact hf.2.2.le
    · exact hnext _ hf.2.2.le
  · have hle : app.shotTimer ≤ 1 / R := not_lt.mp hgt
    refine ⟨app, by rw [if_neg hgt], rfl, ?_, ?_, hle, ?_⟩
    · intro h
      exact absurd h hgt
    · intro _
      rfl
    · exact hnext _ hle

theorem C13_idle_timer_folds_back_witness :
    (idleApp.player.IsAlive && sampleFrame.keySpace) = false ∧
    0 < idleApp.player.GetFireRate idleApp.currentWeapon ∧
    ∃ app1, shooting sampleFrame idleApp = some app1 ∧
      app1.shotTimer ≤ 1 / idleApp.player.GetFireRate idleApp.currentWeapon := by
  have hidle : (idleApp.player.IsAlive && sampleFrame.keySpace) = false := rfl
  have hR : 0 < idleApp.player.GetFireRate idleApp.currentWeapon := by
    norm_num [idleApp, sampleApp, Application.start, PlayerShip.ctor, Ship.ctor,
      Ship.GetFireRate]
  obtain ⟨app1, h1, _, _, _, h5, _⟩ := C13_idle_timer_folds_back sampleFrame idleApp hidle hR
  exact ⟨hidle, hR, app1, h1, h5⟩

/-! ## Population cap -/

theorem fireLoop_returns (player : PlayerShip) (wt : WeaponType) (projSpeed interval : ℚ)
    (hi : 0 < interval) (t : ℚ) (ps : List Projectile) :
    ∃ r, fireLoop player wt projSpeed interval t ps = some r := by
  by_cases hlt : t < interval
  · exact ⟨_, fireLoop_lt player wt projSpeed interval t ps hlt⟩
  · have ht : 0 ≤ t / interval := div_nonneg (by linarith) hi.le
    have hfloor : (0 : ℤ) ≤ ⌊t / interval⌋ := Int.floor_nonneg.mpr ht
    have hk : ((⌊t / interval⌋.toNat : ℕ) : ℚ) = ((⌊t / interval⌋ : ℤ) : ℚ) := by
      have : ((⌊t / interval⌋.toNat : ℕ) : ℤ) = ⌊t / interval⌋ := Int.toNat_of_nonneg hfloor
      exact_mod_cast congrArg (fun z : ℤ => (z : ℚ)) this
    have h1 : ((⌊t / interval⌋.toNat : ℕ) : ℚ) * interval ≤ t := by
      rw [hk, ← le_div_iff₀ hi]
      exact Int.floor_le _
    have h2 : t < (((⌊t / interval⌋.toNat : ℕ) : ℚ) + 1) * interval := by
      rw [hk, ← div_lt_iff₀ hi]
      exact Int.lt_floor_add_one _
    exact ⟨_, fireLoop_exact player wt projSpeed interval hi _ t ps h1 h2⟩

theorem shooting_returns (f : Frame) (s : Application)
    (hR : 0 < s.player.GetFireRate s.currentWeapon) :
    ∃ s1, shooting f s = some s1 ∧ s1.asteroids = s.asteroids ∧ s1.player = s.player := by
  unfold shooting
  split
  · obtain ⟨r, hr⟩ := fireLoop_returns s.player s.currentWeapon
      (s.player.GetSpacing s.currentWeapon * s.player.GetFireRate s.currentWeapon)
      (1 / s.player.GetFireRate s.currentWeapon) (by positivity) (s.shotTimer + f.dt)
      s.projectiles
    simp only [hr, Option.map_some']
    exact ⟨_, rfl, rfl, rfl⟩
  · simp only []
    split
    · exact ⟨_, rfl, rfl, rfl⟩
    · exact ⟨_, rfl, rfl, rfl⟩

theorem Ship.TakeDamage_rates (s : Ship) (dmg : Int) :
    (s.TakeDamage dmg).fireRateLaser = s.fireRateLaser ∧
    (s.TakeDamage dmg).fireRateBullet = s.fireRateBullet := by
  unfold Ship.TakeDamage
  split
  · exact ⟨rfl, rfl⟩
  · simp only []
    split <;> exact ⟨rfl, rfl⟩

theorem PlayerShip.Update_rates (p : PlayerShip) (keys : MoveKeys) (dt : ℚ) :
    (p.Update keys dt).fireRateLaser = p.fireRateLaser ∧
    (p.Update keys dt).fireRateBullet = p.fireRateBullet := by
  unfold PlayerShip.Update
  split <;> exact ⟨rfl, rfl⟩

theorem remove_collision_rates (rnd : Renderer) (dt : ℚ) (player : PlayerShip) (a : Asteroid) :
    (remove_collision rnd dt player a).1.fireRateLaser = player.fireRateLaser ∧
    (remove_collision rnd dt player a).1.fireRateBullet = player.fireRateBullet := by
  unfold remove_collision
  split
  · exact Ship.TakeDamage_rates player.toShip a.GetDamage
  · simp only []
    split <;> exact ⟨rfl, rfl⟩

theorem removeIfCollision_cap (rnd : Renderer) (dt : ℚ) (as : List Asteroid) :
    ∀ player : PlayerShip,
      (removeIfCollision rnd dt player as).2.length ≤ as.length ∧
      (removeIfCollision rnd dt player as).1.fireRateLaser = player.fireRateLaser ∧
      (removeIfCollision rnd dt player as).1.fireRateBullet = player.fireRateBullet := by
  induction as with
  | nil =>
    intro player
    exact ⟨le_refl _, rfl, rfl⟩
  | cons a rest ih =>
    intro player
    have h1 := remove_collision_rates rnd dt player a
    have h2 := ih (remove_collision rnd dt player a).1
    simp only [removeIfCollision]
    refine ⟨?_, h2.2.1.trans h1.1, h2.2.2.trans h1.2⟩
    split
    · simp only [List.length_cons]
      omega
    · simp only [List.length_cons]
      omega

theorem RunFrame_cap (f : Frame) (app : Application)
    (hinv : app.asteroids.length ≤ 150 ∧ app.player.fireRateLaser = 10 ∧
      app.player.fireRateBullet = 30) :
    ∃ app1, Application.RunFrame f app = some app1 ∧
      app1.asteroids.length ≤ 150 ∧ app1.player.fireRateLaser = 10 ∧
      app1.player.fireRateBullet = 30 := by
  obtain ⟨hlen, hl, hb⟩ := hinv
  have h3 : (restartLogic f (updatePlayer f (advanceSpawnTimer f app))).asteroids.length ≤ 150 ∧
      (restartLogic f (updatePlayer f (advanceSpawnTimer f app))).player.fireRateLaser = 10 ∧
      (restartLogic f (updatePlayer f (advanceSpawnTimer f app))).player.fireRateBullet = 30 := by
    have hu := PlayerShip.Update_rates app.player f.move f.dt
    unfold restartLogic
    split
    · exact ⟨Nat.zero_le _, rfl, rfl⟩
    · exact ⟨hlen, hu.1.trans hl, hu.2.trans hb⟩
  obtain ⟨s3, hs3⟩ : ∃ s3, s3 = restartLogic f (updatePlayer f (advanceSpawnTimer f app)) :=
    ⟨_, rfl⟩
  rw [← hs3] at h3
  have h5 : (weaponSwitch f (shapeSwitch f s3)).asteroids = s3.asteroids ∧
      (weaponSwitch f (shapeSwitch f s3)).player = s3.player := by
    unfold weaponSwitch
    split <;> exact ⟨rfl, rfl⟩
  have hR : 0 < (weaponSwitch f (shapeSwitch f s3)).player.GetFireRate
      (weaponSwitch f (shapeSwitch f s3)).currentWeapon := by
    rw [h5.2]
    unfold Ship.GetFireRate
    split
    · rw [h3.2.1]
      norm_num
    · rw [h3.2.2]
      norm_num
  obtain ⟨s6, hs6, has6, hp6⟩ := shooting_returns f _ hR
  refine ⟨collisions theRenderer f (updateProjectiles theRenderer f (spawnAsteroids f s6)), ?_, ?_⟩
  · simp only [Application.RunFrame]
    rw [← hs3, hs6]
    rfl
  · have hs7 : (spawnAsteroids f s6).asteroids.length ≤ 150 ∧
        (spawnAsteroids f s6).player = s6.player := by
      unfold spawnAsteroids
      split
      · rename_i hc
        refine ⟨?_, rfl⟩
        simp only [List.length_append, List.length_singleton]
        have := hc.2
        simp only [MAX_AST] at this
        omega
      · refine ⟨?_, rfl⟩
        rw [has6, h5.1]
        exact h3.1
    have hcl := collisionLoop_points 0
      (updateProjectiles theRenderer f (spawnAsteroids f s6)).projectiles
      (spawnAsteroids f s6).asteroids (spawnAsteroids f s6).points
    have hrc := removeIfCollision_cap theRenderer f.dt
      (projectileAsteroidCollisions
        (updateProjectiles theRenderer f (spawnAsteroids f s6))).asteroids
      (spawnAsteroids f s6).player
    have hpl : (spawnAsteroids f s6).player.fireRateLaser = 10 ∧
        (spawnAsteroids f s6).player.fireRateBullet = 30 := by
      rw [hs7.2, hp6, h5.2]
      exact h3.2
    refine ⟨?_, ?_, ?_⟩
    · exact le_trans hrc.1 (le_trans hcl.1 hs7.1)
    · exact hrc.2.1.trans hpl.1
    · exact hrc.2.2.trans hpl.2

/-- C18: from the state on entry to the game loop (no asteroid), every run of frames, with
any keys, frame times and random outcomes (restarts included), ends, and ends in a state with
at most 150 asteroids. -/
theorem C18_population_cap (textureWidth : Int) (intervalU : ℚ) (frames : List Frame) :
    ∃ app, runFrames frames (Application.start textureWidth intervalU) = some app ∧
      app.asteroids.length ≤ 150 := by
  have key : ∀ (fs : List Frame) (s : Application),
      (s.asteroids.length ≤ 150 ∧ s.player.fireRateLaser = 10 ∧
        s.player.fireRateBullet = 30) →
      ∃ app, runFrames fs s = some app ∧ app.asteroids.length ≤ 150 := by
    intro fs
    induction fs with
    | nil =>
      intro s hs
      exact ⟨s, rfl, hs.1⟩
    | cons f fs ih =>
      intro s hs
      obtain ⟨s1, hrun, hinv1⟩ := RunFrame_cap f s hs
      obtain ⟨app, happ, hlen⟩ := ih s1 hinv1
      refine ⟨app, ?_, hlen⟩
      simp only [runFrames, hrun, Option.some_bind, happ]
  exact key frames _ ⟨Nat.zero_le _, rfl, rfl⟩

/-! ## Phase order within a frame -/

theorem restartLogic_asteroids (f : Frame) (s : Application) :
    (restartLogic f (updatePlayer f (advanceSpawnTimer f s))).asteroids =
      (restartLogic f s).asteroids := by
  simp only [restartLogic, updatePlayer, advanceSpawnTimer, Ship.IsAlive,
    PlayerShip.Update_alive]
  split <;> rfl

theorem weaponSwitch_asteroids (f : Frame) (s : Application) :
    (weaponSwitch f s).asteroids = s.asteroids := by
  unfold weaponSwitch
  split <;> rfl

theorem remove_collision_eq (rnd : Renderer) (dt : ℚ) (player : PlayerShip) (a : Asteroid) :
    remove_collision rnd dt player a =
      if (player.IsAlive &&
          distanceLess player.GetPosition a.GetPosition (player.GetRadius + a.GetRadius)) = true
      then (player.TakeDamage a.GetDamage, a, true)
      else (player, (a.Update rnd dt).1, !(a.Update rnd dt).2) := by
  unfold remove_collision
  split
  · rfl
  · simp only []
    cases (a.Update rnd dt).2 <;> rfl

/-- C20, as the code has it: only the projectiles are advanced and culled before the
collision blocks. The "Update projectiles" block leaves the asteroids as they are, and so do
the other blocks before the collisions, except that the restart logic may clear them and the
spawn step may append one; the projectile-asteroid block moves no asteroid (health apart, its
asteroids are a sublist of those it received). Each asteroid is advanced inside the
asteroid-ship pass, by the `Update` call of the lambda, after its own intersection test and
only when that test did not fire, and is culled there. So both intersection tests of a
frame read asteroid positions that are not yet advanced for that frame. -/
theorem C20_obstacles_advance_after_the_tests (rnd : Renderer) (f : Frame)
    (app : Application) :
    (updateProjectiles rnd f app).asteroids = app.asteroids ∧
    (updateProjectiles rnd f app).projectiles = removeIfUpdate rnd f.dt app.projectiles ∧
    ((projectileAsteroidCollisions app).asteroids.map Asteroid.body).Sublist
      (app.asteroids.map Asteroid.body) ∧
    (∀ (player : PlayerShip) (a : Asteroid),
      remove_collision rnd f.dt player a =
        if (player.IsAlive &&
            distanceLess player.GetPosition a.GetPosition
              (player.GetRadius + a.GetRadius)) = true
        then (player.TakeDamage a.GetDamage, a, true)
        else (player, (a.Update rnd f.dt).1, !(a.Update rnd f.dt).2)) ∧
    (∀ app1, Application.RunFrame f app = some app1 →
      ∃ s6, s6.asteroids = (restartLogic f app).asteroids ∧
        (updateProjectiles theRenderer f (spawnAsteroids f s6)).asteroids =
          (spawnAsteroids f s6).asteroids ∧
        ((spawnAsteroids f s6).asteroids = s6.asteroids ∨
          (spawnAsteroids f s6).asteroids = s6.asteroids ++
            [MakeAsteroid C_WIDTH C_HEIGHT s6.currentShape f.spawnRoll]) ∧
        app1 = asteroidShipCollisions theRenderer f
          (projectileAsteroidCollisions
            (updateProjectiles theRenderer f (spawnAsteroids f s6)))) := by
  refine ⟨rfl, rfl, collisionLoop_body_sublist 0 app.projectiles app.asteroids app.points,
    fun player a => remove_collision_eq rnd f.dt player a, ?_⟩
  intro app1 hrun
  obtain ⟨s6, hs6, rfl⟩ := RunFrame_collisions f app app1 hrun
  refine ⟨s6, ?_, rfl, ?_, rfl⟩
  · rw [(shooting_points f _ s6 hs6).2, weaponSwitch_asteroids]
    exact restartLogic_asteroids f app
  · unfold spawnAsteroids
    split
    · exact Or.inr rfl
    · exact Or.inl rfl

theorem grazingRock_touches_sampleShip :
    distanceLess sampleShip.GetPosition grazingRock.GetPosition
      (sampleShip.GetRadius + grazingRock.GetRadius) = true := by
  simp [distanceLess, Vector2DistanceSqr, grazingRock, sampleRock, sampleShip,
    Ship.GetPosition, PlayerShip.GetRadius, PlayerShip.ctor, Ship.ctor, Asteroid.GetPosition,
    Asteroid.GetRadius, radiusOfSize, MakeAsteroid, makeShaped, RedHeavyAsteroid,
    Asteroid.SetupHP, Asteroid.ctor, sampleRoll, Size.ofShift, Size.toInt, C_WIDTH, C_HEIGHT]
  norm_num

/-- The grazing asteroid is 95 pixels from the ship (radii 32 + 64 = 96) when the collision
blocks start and would be 97 pixels away, inside the bounds, once advanced by the frame's
`dt = 1/60`. The code tests the position that is not advanced: the ship takes the 80 damage
(health 100 to 20) and the asteroid is removed. -/
theorem C20_test_uses_position_before_advance :
    sampleFrame.dt = 1 / 60 ∧ grazeApp.player = sampleShip ∧
    grazeApp.asteroids = [grazingRock] ∧
    (grazingRock.Update theRenderer sampleFrame.dt).2 = true ∧
    distanceLess sampleShip.GetPosition
      (grazingRock.Update theRenderer sampleFrame.dt).1.GetPosition
      (sampleShip.GetRadius + (grazingRock.Update theRenderer sampleFrame.dt).1.GetRadius)
        = false ∧
    sampleShip.hp = 100 ∧
    (collisions theRenderer sampleFrame grazeApp).player.hp = 20 ∧
    (collisions theRenderer sampleFrame grazeApp).asteroids = [] := by
  have hupd : grazingRock.Update theRenderer sampleFrame.dt =
      ({ grazingRock with
          transform := { position := { x := 800, y := 703 }, rotation := 2 / 3 } }, true) := by
    simp [Asteroid.Update, grazingRock, sampleRock, sampleFrame, theRenderer, Renderer.Width,
      Renderer.Height, Vector2Add, Vector2Scale, Asteroid.GetRadius, radiusOfSize,
      MakeAsteroid, makeShaped, RedHeavyAsteroid, Asteroid.SetupHP, Asteroid.ctor, sampleRoll,
      Size.ofShift, Size.toInt, C_WIDTH, C_HEIGHT]
    norm_num
  have hloop : collisionLoop 0 grazeApp.projectiles grazeApp.asteroids grazeApp.points =
      ([], [grazingRock], 7) := by
    rw [collisionLoop_end]
    · rfl
    · decide
  have hcol : collisions theRenderer sampleFrame grazeApp =
      { grazeApp with
        projectiles := [], asteroids := [], points := 7
        player := sampleShip.TakeDamage grazingRock.GetDamage } := by
    simp only [collisions, asteroidShipCollisions, projectileAsteroidCollisions, hloop,
      removeIfCollision]
    rw [show grazeApp.player = sampleShip from rfl,
      remove_collision_hit theRenderer sampleFrame.dt sampleShip grazingRock rfl
        grazingRock_touches_sampleShip]
    rfl
  refine ⟨rfl, rfl, rfl, ?_, ?_, rfl, ?_, ?_⟩
  · rw [hupd]
  · rw [hupd]
    simp [distanceLess, Vector2DistanceSqr, grazingRock, sampleRock, sampleShip,
      Ship.GetPosition, PlayerShip.GetRadius, PlayerShip.ctor, Ship.ctor, Asteroid.GetPosition,
      Asteroid.GetRadius, radiusOfSize, MakeAsteroid, makeShaped, RedHeavyAsteroid,
      Asteroid.SetupHP, Asteroid.ctor, sampleRoll, Size.ofShift, Size.toInt, C_WIDTH, C_HEIGHT]
    norm_num
  · rw [hcol]
    decide
  · rw [hcol]

/-! ## A spawned obstacle enters the play area -/

theorem segment_stays_between {K : Type} [LinearOrderedField K] (lo hi e c t : K)
    (he : lo ≤ e ∧ e ≤ hi) (hc : lo ≤ c ∧ c ≤ hi) (ht : 0 ≤ t ∧ t ≤ 1) :
    lo ≤ e + (c - e) * t ∧ e + (c - e) * t ≤ hi := by
  obtain ⟨he1, he2⟩ := he
  obtain ⟨hc1, hc2⟩ := hc
  obtain ⟨ht1, ht2⟩ := ht
  constructor
  · have h1 : 0 ≤ (e - lo) * (1 - t) := mul_nonneg (by linarith) (by linarith)
    have h2 : 0 ≤ (c - lo) * t := mul_nonneg (by linarith) ht1
    nlinarith
  · have h1 : 0 ≤ (hi - e) * (1 - t) := mul_nonneg (by linarith) (by linarith)
    have h2 : 0 ≤ (hi - c) * t := mul_nonneg (by linarith) ht1
    nlinarith

theorem normalized_step_between (lo hi ex cx cy ey len s dt : ℚ)
    (he : lo ≤ ex ∧ ex ≤ hi) (hc : lo ≤ cx ∧ cx ≤ hi) (hs : 0 ≤ s) (hdt : 0 ≤ dt)
    (hreach : s * dt ≤ len) :
    lo ≤ ex + (Vector2Normalize { x := cx - ex, y := cy - ey } len).x * s * dt ∧
    ex + (Vector2Normalize { x := cx - ex, y := cy - ey } len).x * s * dt ≤ hi ∧
    lo ≤ ex + (Vector2Normalize { x := cy - ey, y := cx - ex } len).y * s * dt ∧
    ex + (Vector2Normalize { x := cy - ey, y := cx - ex } len).y * s * dt ≤ hi := by
  unfold Vector2Normalize
  by_cases hlen : 0 < len
  · simp only [if_pos hlen]
    have ht : 0 ≤ s * dt / len ∧ s * dt / len ≤ 1 :=
      ⟨div_nonneg (mul_nonneg hs hdt) hlen.le, (div_le_one hlen).mpr hreach⟩
    have hseg := segment_stays_between lo hi ex cx (s * dt / len) he hc ht
    have e1 : (cx - ex) * (1 / len) * s * dt = (cx - ex) * (s * dt / len) := by
      field_simp
      ring
    rw [e1]
    exact ⟨hseg.1, hseg.2, hseg.1, hseg.2⟩
  · simp only [if_neg hlen, zero_mul, add_zero]
    exact ⟨he.1, he.2, he.1, he.2⟩

theorem radiusOfSize_pos (size : Size) : 0 < radiusOfSize size := by
  unfold radiusOfSize
  cases size <;> norm_num [Size.toInt]

theorem entryPosition_on_boundary (w h : Int) (size : Size) (roll : SpawnRoll)
    (hw : 0 ≤ w) (hh : 0 ≤ h) (halong : 0 ≤ roll.alongU ∧ roll.alongU ≤ 1) :
    ((entryPosition w h size roll).x = -radiusOfSize size ∨
      (entryPosition w h size roll).x = (w : ℚ) + radiusOfSize size ∨
      (entryPosition w h size roll).y = -radiusOfSize size ∨
      (entryPosition w h size roll).y = (h : ℚ) + radiusOfSize size) ∧
    (-radiusOfSize size ≤ (entryPosition w h size roll).x ∧
      (entryPosition w h size roll).x ≤ (w : ℚ) + radiusOfSize size) ∧
    (-radiusOfSize size ≤ (entryPosition w h size roll).y ∧
      (entryPosition w h size roll).y ≤ (h : ℚ) + radiusOfSize size) := by
  have hr := radiusOfSize_pos size
  have hwq : (0 : ℚ) ≤ (w : ℚ) := by exact_mod_cast hw
  have hhq : (0 : ℚ) ≤ (h : ℚ) := by exact_mod_cast hh
  obtain ⟨hu0, hu1⟩ := halong
  have hxw : 0 ≤ roll.alongU * (w : ℚ) ∧ roll.alongU * (w : ℚ) ≤ (w : ℚ) :=
    ⟨mul_nonneg hu0 hwq, by nlinarith⟩
  have hyh : 0 ≤ roll.alongU * (h : ℚ) ∧ roll.alongU * (h : ℚ) ≤ (h : ℚ) :=
    ⟨mul_nonneg hu0 hhq, by nlinarith⟩
  unfold entryPosition
  split <;> simp only [RandomFloat, sub_zero, zero_add] <;>
    refine ⟨by simp, ⟨by linarith, by linarith⟩, ⟨by linarith, by linarith⟩⟩

theorem aimCenter_inside (w h : Int) (roll : SpawnRoll) (hw : 0 ≤ w) (hh : 0 ≤ h)
    (htarget : Vector2DistanceSqr (aimCenter w h roll)
        { x := (w : ℚ) * (1 / 2), y := (h : ℚ) * (1 / 2) } ≤
      ((min w h : Int) * (1 / 10) : ℚ) * ((min w h : Int) * (1 / 10) : ℚ)) :
    (0 ≤ (aimCenter w h roll).x ∧ (aimCenter w h roll).x ≤ (w : ℚ)) ∧
    (0 ≤ (aimCenter w h roll).y ∧ (aimCenter w h roll).y ≤ (h : ℚ)) := by
  have hm0 : (0 : ℚ) ≤ ((min w h : Int) : ℚ) := by exact_mod_cast le_min hw hh
  have hmw : ((min w h : Int) : ℚ) ≤ (w : ℚ) := by exact_mod_cast min_le_left w h
  have hmh : ((min w h : Int) : ℚ) ≤ (h : ℚ) := by exact_mod_cast min_le_right w h
  generalize ((min w h : Int) : ℚ) = m at *
  generalize aimCenter w h roll = c at *
  unfold Vector2DistanceSqr at htarget
  simp only at htarget
  have hx : (c.x - (w : ℚ) * (1 / 2)) * (c.x - (w : ℚ) * (1 / 2)) ≤ (m * (1 / 10)) * (m * (1 / 10)) := by
    nlinarith [mul_self_nonneg (c.y - (h : ℚ) * (1 / 2))]
  have hy : (c.y - (h : ℚ) * (1 / 2)) * (c.y - (h : ℚ) * (1 / 2)) ≤ (m * (1 / 10)) * (m * (1 / 10)) := by
    nlinarith [mul_self_nonneg (c.x - (w : ℚ) * (1 / 2))]
  have hk : (0 : ℚ) ≤ m * (1 / 10) := by positivity
  have key : ∀ d k : ℚ, 0 ≤ k → d * d ≤ k * k → -k ≤ d ∧ d ≤ k := by
    intro d k hk0 hd
    constructor
    · by_contra hcon
      push_neg at hcon
      nlinarith
    · by_contra hcon
      push_neg at hcon
      nlinarith
  have hax := key _ _ hk hx
  have hay := key _ _ hk hy
  refine ⟨⟨by linarith, by linarith⟩, ⟨by linarith, by linarith⟩⟩

theorem MakeAsteroid_motion (w h : Int) (shape : AsteroidShape) (roll : SpawnRoll) :
    (MakeAsteroid w h shape roll).render.size = Size.ofShift roll.sizeShift ∧
    (MakeAsteroid w h shape roll).transform.position =
      entryPosition w h (Size.ofShift roll.sizeShift) roll ∧
    (MakeAsteroid w h shape roll).physics.velocity =
      Vector2Scale
        (Vector2Normalize
          (Vector2Subtract (aimCenter w h roll)
            (entryPosition w h (Size.ofShift roll.sizeShift) roll)) roll.aimLength)
        (RandomFloat Asteroid.SPEED_MIN Asteroid.SPEED_MAX roll.speedU) := by
  cases shape <;> simp only [MakeAsteroid, makeShaped] <;>
    first
      | exact ⟨rfl, rfl, rfl⟩
      | (cases AsteroidShape.ofRoll roll.shapeRoll <;> exact ⟨rfl, rfl, rfl⟩)

theorem Asteroid.Update_kept_iff (rnd : Renderer) (a : Asteroid) (dt : ℚ) :
    (a.Update rnd dt).2 = true ↔
      (-a.GetRadius ≤ a.transform.position.x + a.physics.velocity.x * dt ∧
        a.transform.position.x + a.physics.velocity.x * dt ≤ (rnd.screenW : ℚ) + a.GetRadius) ∧
      (-a.GetRadius ≤ a.transform.position.y + a.physics.velocity.y * dt ∧
        a.transform.position.y + a.physics.velocity.y * dt ≤ (rnd.screenH : ℚ) + a.GetRadius) := by
  unfold Asteroid.Update
  simp only [Asteroid.GetRadius, Vector2Add, Vector2Scale, Renderer.Width, Renderer.Height]
  split
  · rename_i hout
    simp only [Bool.false_eq_true, false_iff]
    rintro ⟨⟨h1, h2⟩, h3, h4⟩
    rcases hout with h | h | h | h <;> linarith
  · rename_i hin
    simp only [true_iff]
    simp only [not_or, not_lt] at hin
    exact ⟨⟨hin.1, hin.2.1⟩, hin.2.2.1, hin.2.2.2⟩

/-- C21: in exact arithmetic, take an obstacle `MakeAsteroid` creates for a play area of
width `w >= 0` and height `h >= 0`, of any shape, size class and entry edge, with its entry
coordinate drawn in `[0, w]` or `[0, h]`, its target point within `0.1 * min(w, h)` of the
play-area center and a speed `s >= 0`; `aimLength` is the distance from the entry position to
the target as the square root inside `Vector2Normalize` gave it. The entry position lies on
the boundary of `[-r, w + r] x [-r, h + r]`, `r` its own radius, so `Update(0)` reports
in-bounds; and for every `dt >= 0` with `s * dt <= aimLength` the advanced position is inside
that rectangle and `Update(dt)` reports in-bounds. -/
theorem C21_spawned_obstacle_not_culled_on_entry (w h : Int) (shape : AsteroidShape)
    (roll : SpawnRoll) (dt : ℚ) (hw : 0 ≤ w) (hh : 0 ≤ h)
    (halong : 0 ≤ roll.alongU ∧ roll.alongU ≤ 1)
    (htarget : Vector2DistanceSqr (aimCenter w h roll)
        { x := (w : ℚ) * (1 / 2), y := (h : ℚ) * (1 / 2) } ≤
      ((min w h : Int) * (1 / 10) : ℚ) * ((min w h : Int) * (1 / 10) : ℚ))
    (hspeed : 0 ≤ RandomFloat Asteroid.SPEED_MIN Asteroid.SPEED_MAX roll.speedU)
    (hdt : 0 ≤ dt)
    (hreach : RandomFloat Asteroid.SPEED_MIN Asteroid.SPEED_MAX roll.speedU * dt ≤
      roll.aimLength) :
    ((MakeAsteroid w h shape roll).GetPosition.x = -(MakeAsteroid w h shape roll).GetRadius ∨
      (MakeAsteroid w h shape roll).GetPosition.x =
        (w : ℚ) + (MakeAsteroid w h shape roll).GetRadius ∨
      (MakeAsteroid w h shape roll).GetPosition.y = -(MakeAsteroid w h shape roll).GetRadius ∨
      (MakeAsteroid w h shape roll).GetPosition.y =
        (h : ℚ) + (MakeAsteroid w h shape roll).GetRadius) ∧
    ((MakeAsteroid w h shape roll).Update { screenW := w, screenH := h } 0).2 = true ∧
    ((MakeAsteroid w h shape roll).Update { screenW := w, screenH := h } dt).2 = true ∧
    (-(MakeAsteroid w h shape roll).GetRadius ≤
        ((MakeAsteroid w h shape roll).Update { screenW := w, screenH := h } dt).1.GetPosition.x ∧
      ((MakeAsteroid w h shape roll).Update { screenW := w, screenH := h } dt).1.GetPosition.x ≤
        (w : ℚ) + (MakeAsteroid w h shape roll).GetRadius ∧
      -(MakeAsteroid w h shape roll).GetRadius ≤
        ((MakeAsteroid w h shape roll).Update { screenW := w, screenH := h } dt).1.GetPosition.y ∧
      ((MakeAsteroid w h shape roll).Update { screenW := w, screenH := h } dt).1.GetPosition.y ≤
        (h : ℚ) + (MakeAsteroid w h shape roll).GetRadius) := by
  obtain ⟨hsize, hpos, hvel⟩ := MakeAsteroid_motion w h shape roll
  have hrad : (MakeAsteroid w h shape roll).GetRadius =
      radiusOfSize (Size.ofShift roll.sizeShift) := by
    simp only [Asteroid.GetRadius, hsize]
  have hr := radiusOfSize_pos (Size.ofShift roll.sizeShift)
  have hwq : (0 : ℚ) ≤ (w : ℚ) := by exact_mod_cast hw
  have hhq : (0 : ℚ) ≤ (h : ℚ) := by exact_mod_cast hh
  obtain ⟨hedge, hex, hey⟩ :=
    entryPosition_on_boundary w h (Size.ofShift roll.sizeShift) roll hw hh halong
  obtain ⟨hcx, hcy⟩ := aimCenter_inside w h roll hw hh htarget
  have hcx2 : -radiusOfSize (Size.ofShift roll.sizeShift) ≤ (aimCenter w h roll).x ∧
      (aimCenter w h roll).x ≤ (w : ℚ) + radiusOfSize (Size.ofShift roll.sizeShift) :=
    ⟨by linarith [hcx.1], by linarith [hcx.2]⟩
  have hcy2 : -radiusOfSize (Size.ofShift roll.sizeShift) ≤ (aimCenter w h roll).y ∧
      (aimCenter w h roll).y ≤ (h : ℚ) + radiusOfSize (Size.ofShift roll.sizeShift) :=
    ⟨by linarith [hcy.1], by linarith [hcy.2]⟩
  have hmove : ∀ t : ℚ, 0 ≤ t →
      RandomFloat Asteroid.SPEED_MIN Asteroid.SPEED_MAX roll.speedU * t ≤ roll.aimLength →
      (-(MakeAsteroid w h shape roll).GetRadius ≤
          (MakeAsteroid w h shape roll).transform.position.x +
            (MakeAsteroid w h shape roll).physics.velocity.x * t ∧
        (MakeAsteroid w h shape roll).transform.position.x +
            (MakeAsteroid w h shape roll).physics.velocity.x * t ≤
          (w : ℚ) + (MakeAsteroid w h shape roll).GetRadius) ∧
      (-(MakeAsteroid w h shape roll).GetRadius ≤
          (MakeAsteroid w h shape roll).transform.position.y +
            (MakeAsteroid w h shape roll).physics.velocity.y * t ∧
        (MakeAsteroid w h shape roll).transform.position.y +
            (MakeAsteroid w h shape roll).physics.velocity.y * t ≤
          (h : ℚ) + (MakeAsteroid w h shape roll).GetRadius) := by
    intro t ht0 htreach
    rw [hrad, hpos, hvel]
    simp only [Vector2Scale, Vector2Subtract]
    have hxs := normalized_step_between _ _ _ _ (aimCenter w h roll).y
      (entryPosition w h (Size.ofShift roll.sizeShift) roll).y roll.aimLength _ t
      hex hcx2 hspeed ht0 htreach
    have hys := normalized_step_between _ _ _ _ (aimCenter w h roll).x
      (entryPosition w h (Size.ofShift roll.sizeShift) roll).x roll.aimLength _ t
      hey hcy2 hspeed ht0 htreach
    exact ⟨⟨hxs.1, hxs.2.1⟩, hys.2.2.1, hys.2.2.2⟩
  have hzero := hmove 0 (le_refl 0) (by
    rw [mul_zero]
    linarith [mul_nonneg hspeed hdt])
  have hat := hmove dt hdt hreach
  refine ⟨?_, ?_, ?_, ?_⟩
  · simp only [Asteroid.GetPosition, hrad, hpos]
    exact hedge
  · rw [Asteroid.Update_kept_iff]
    exact hzero
  · rw [Asteroid.Update_kept_iff]
    exact hat
  · have hp : ((MakeAsteroid w h shape roll).Update { screenW := w, screenH := h } dt).1.GetPosition
        = { x := (MakeAsteroid w h shape roll).transform.position.x +
                (MakeAsteroid w h shape roll).physics.velocity.x * dt
            y := (MakeAsteroid w h shape roll).transform.position.y +
                (MakeAsteroid w h shape roll).physics.velocity.y * dt } := by
      unfold Asteroid.Update
      simp only [Vector2Add, Vector2Scale]
      split <;> rfl
    rw [hp]
    exact ⟨hat.1.1, hat.1.2, hat.2.1, hat.2.2⟩

theorem C21_spawned_obstacle_not_culled_on_entry_witness :
    (0 ≤ C_WIDTH ∧ 0 ≤ C_HEIGHT) ∧
    (0 ≤ sampleRoll.alongU ∧ sampleRoll.alongU ≤ 1) ∧
    Vector2DistanceSqr (aimCenter C_WIDTH C_HEIGHT sampleRoll)
        { x := (C_WIDTH : ℚ) * (1 / 2), y := (C_HEIGHT : ℚ) * (1 / 2) } ≤
      ((min C_WIDTH C_HEIGHT : Int) * (1 / 10) : ℚ) *
        ((min C_WIDTH C_HEIGHT : Int) * (1 / 10) : ℚ) ∧
    RandomFloat Asteroid.SPEED_MIN Asteroid.SPEED_MAX sampleRoll.speedU * 1 ≤
      sampleRoll.aimLength ∧
    ((MakeAsteroid C_WIDTH C_HEIGHT .TRIANGLE sampleRoll).Update
      { screenW := C_WIDTH, screenH := C_HEIGHT } 1).2 = true := by
  have hw : 0 ≤ C_WIDTH := by decide
  have hh : 0 ≤ C_HEIGHT := by decide
  have halong : 0 ≤ sampleRoll.alongU ∧ sampleRoll.alongU ≤ 1 := by
    norm_num [sampleRoll]
  have htarget : Vector2DistanceSqr (aimCenter C_WIDTH C_HEIGHT sampleRoll)
      { x := (C_WIDTH : ℚ) * (1 / 2), y := (C_HEIGHT : ℚ) * (1 / 2) } ≤
      ((min C_WIDTH C_HEIGHT : Int) * (1 / 10) : ℚ) *
        ((min C_WIDTH C_HEIGHT : Int) * (1 / 10) : ℚ) := by
    norm_num [Vector2DistanceSqr, aimCenter, sampleRoll, RandomFloat, C_WIDTH, C_HEIGHT]
  have hspeed : 0 ≤ RandomFloat Asteroid.SPEED_MIN Asteroid.SPEED_MAX sampleRoll.speedU := by
    norm_num [RandomFloat, Asteroid.SPEED_MIN, Asteroid.SPEED_MAX, sampleRoll]
  have hreach : RandomFloat Asteroid.SPEED_MIN Asteroid.SPEED_MAX sampleRoll.speedU * 1 ≤
      sampleRoll.aimLength := by
    norm_num [RandomFloat, Asteroid.SPEED_MIN, Asteroid.SPEED_MAX, sampleRoll]
  exact ⟨⟨hw, hh⟩, halong, htarget, hreach,
    (C21_spawned_obstacle_not_culled_on_entry C_WIDTH C_HEIGHT .TRIANGLE sampleRoll 1 hw hh
      halong htarget hspeed (by norm_num) hreach).2.2.1⟩

end AsteroidsOOP
